import Mathlib

/-!
Shallow embedding of the availability-accounting core of the
Library-Management-System repository (Node/Express/Prisma), and proofs about
its checkout/return state machine, overdue reporting, pagination metadata and
CSV export.

Conventions of the embedding:
* timestamps are epoch milliseconds, modelled as `Int`;
* the relational store is a `LibraryState` record of plain lists;
* each JS service/repository method becomes a Lean function threading the
  state explicitly and returning `Except`/`Option` results where the JS
  throws or returns `null`;
* `Option` models JS `undefined`/`null` for update payload fields (the
  services never pass an explicit `null` for a field they set).

Two versions of `BorrowingService` exist in the repository sources: the
variant at `src/services/BorrowingService.js`, which checks the cached
`availableQuantity` and passes an `availableQuantity` patch to
`BookRepository.update`, and a second variant of the same class that counts
active ledger entries and calls `BookRepository.updateAvailability`.  Both
are embedded below (`BorrowingService.*` for the former,
`BorrowingServiceLedger.*` for the latter).
-/

namespace Library

instance {ε α : Type} [DecidableEq ε] [DecidableEq α] : DecidableEq (Except ε α) :=
  fun x y =>
    match x, y with
    | Except.ok a, Except.ok b =>
      if h : a = b then isTrue (by rw [h])
      else isFalse (fun hc => by cases hc; exact h rfl)
    | Except.error a, Except.error b =>
      if h : a = b then isTrue (by rw [h])
      else isFalse (fun hc => by cases hc; exact h rfl)
    | Except.ok _, Except.error _ => isFalse (fun hc => by cases hc)
    | Except.error _, Except.ok _ => isFalse (fun hc => by cases hc)

/-- Epoch-millisecond timestamps (JS `Date.getTime()`). -/
abbrev Time := Int

/-- Milliseconds per civil day: `1000 * 3600 * 24`. -/
def msPerDay : Int := 86400000

/-- `Math.ceil(a / b)` for integers `a`, `b` with `0 < b`, as used by
`Borrowing.getDaysOverdue` (only ever applied to a positive numerator). -/
def ceilDiv (a b : Int) : Int := (a + b - 1) / b

/-- The book record, restricted to the fields the availability-accounting
core reads and writes (`id`, `totalQuantity`, `availableQuantity`).  The
metadata columns (title, author, isbn, shelfLocation) play no role in any
of the verified properties of the state machine. -/
structure Book where
  id : Nat
  totalQuantity : Int
  availableQuantity : Int
  deriving Repr, DecidableEq

/-- The borrower record, restricted to its identity. -/
structure Borrower where
  id : Nat
  deriving Repr, DecidableEq

/-- A borrowing ledger entry (`prisma.borrowing` row). -/
structure Borrowing where
  id : Nat
  borrowerId : Nat
  bookId : Nat
  checkoutDate : Time
  dueDate : Time
  returnDate : Option Time
  deriving Repr, DecidableEq

/-- The persistent store: books, borrowers, the borrowing ledger, and the
auto-increment counter for borrowing ids. -/
structure LibraryState where
  books : List Book
  borrowers : List Borrower
  borrowings : List Borrowing
  nextBorrowingId : Nat
  deriving Repr, DecidableEq

/-- `prisma.book.findUnique({ where: { id } })`. -/
def findBook (s : LibraryState) (id : Nat) : Option Book :=
  s.books.find? (fun bk => bk.id == id)

/-- `prisma.borrower.findUnique({ where: { id } })`. -/
def findBorrower (s : LibraryState) (id : Nat) : Option Borrower :=
  s.borrowers.find? (fun br => br.id == id)

/-- `prisma.borrowing.findUnique({ where: { id } })`. -/
def findBorrowing (s : LibraryState) (id : Nat) : Option Borrowing :=
  s.borrowings.find? (fun b => b.id == id)

/-- The active (unreturned) ledger entries of one book:
`borrowing.findMany({ where: { bookId, returnDate: null } })`, as used by
`BorrowingRepository.findByBook(bookId, { activeOnly: true })` and by the
`borrowings` include of `BookRepository.updateAvailability`. -/
def activeByBook (s : LibraryState) (bookId : Nat) : List Borrowing :=
  s.borrowings.filter (fun b => b.bookId == bookId && b.returnDate.isNone)

namespace Borrowing

/-- `Borrowing.LOAN_PERIOD_DAYS = 14`. -/
def LOAN_PERIOD_DAYS : Int := 14

/-- `Borrowing.calculateDueDate(checkoutDate)`: the source computes
`dueDate.setDate(dueDate.getDate() + LOAN_PERIOD_DAYS)`, i.e. adds exactly
14 civil days; on UTC epoch-millisecond timestamps (every civil day being
86400000 ms) this is addition of `14 * 86400000`. -/
def calculateDueDate (checkoutDate : Time) : Time :=
  checkoutDate + LOAN_PERIOD_DAYS * msPerDay

/-- `Borrowing.isOverdue(borrowing, currentDate)`: false when already
returned, otherwise `dueDate < currentDate`. -/
def isOverdue (b : Borrowing) (currentDate : Time) : Bool :=
  !b.returnDate.isSome && decide (b.dueDate < currentDate)

/-- `Borrowing.getDaysOverdue(borrowing, currentDate)`:
`Math.ceil((currentDate - dueDate) / (1000*3600*24))` when overdue, else 0. -/
def getDaysOverdue (b : Borrowing) (currentDate : Time) : Int :=
  if isOverdue b currentDate then ceilDiv (currentDate - b.dueDate) msPerDay
  else 0

end Borrowing

/-- The update payload accepted by `BookRepository.update`.  Callers may put
an `availableQuantity` field into it (the service layer does), but the
repository only copies title/author/isbn/totalQuantity/shelfLocation. -/
structure BookUpdateData where
  totalQuantity : Option Int := none
  availableQuantity : Option Int := none
  deriving Repr, DecidableEq

namespace BookRepository

/-- `BookRepository.update(id, updateData)`: builds `updateFields` from the
payload, copying only `title`, `author`, `isbn`, `totalQuantity` and
`shelfLocation`; an `availableQuantity` entry in `updateData` is **not**
copied and is therefore silently dropped.  Returns `null` (here `none`)
when the book does not exist (Prisma error P2025). -/
def update (s : LibraryState) (id : Nat) (u : BookUpdateData) :
    Option Book × LibraryState :=
  match findBook s id with
  | none => (none, s)
  | some _ =>
    let books := s.books.map (fun bk =>
      if bk.id == id then
        { bk with totalQuantity := u.totalQuantity.getD bk.totalQuantity }
      else bk)
    let s1 : LibraryState := { s with books := books }
    (findBook s1 id, s1)

/-- `BookRepository.updateAvailability(id)`: recompute the book's
availability from the ledger as
`Math.max(0, totalQuantity - activeBorrowings.length)` and persist it. -/
def updateAvailability (s : LibraryState) (id : Nat) :
    Option Book × LibraryState :=
  match findBook s id with
  | none => (none, s)
  | some bk =>
    let borrowedQuantity : Int := (activeByBook s id).length
    let availableQuantity : Int := max 0 (bk.totalQuantity - borrowedQuantity)
    let books := s.books.map (fun b =>
      if b.id == id then { b with availableQuantity := availableQuantity }
      else b)
    let s1 : LibraryState := { s with books := books }
    (findBook s1 id, s1)

end BookRepository

/-- The update payload accepted by `BorrowingRepository.update`.  The
`extendDueDate` service puts a `dueDate` field into it, but the repository
only copies `returnDate`. -/
structure BorrowingUpdateData where
  returnDate : Option Time := none
  dueDate : Option Time := none
  deriving Repr, DecidableEq

namespace BorrowingRepository

/-- `BorrowingRepository.create(borrowingData)`: inserts a new ledger entry
with `checkoutDate = now`, `dueDate = Borrowing.calculateDueDate(now)` and
no return date, under the next auto-increment id. -/
def create (s : LibraryState) (now : Time) (borrowerId bookId : Nat) :
    Borrowing × LibraryState :=
  let b : Borrowing :=
    { id := s.nextBorrowingId
      borrowerId := borrowerId
      bookId := bookId
      checkoutDate := now
      dueDate := Borrowing.calculateDueDate now
      returnDate := none }
  (b, { s with
          borrowings := s.borrowings ++ [b]
          nextBorrowingId := s.nextBorrowingId + 1 })

/-- `BorrowingRepository.update(id, updateData)`: builds `updateFields`
copying **only** `returnDate` (when present in the payload); a `dueDate`
entry in the payload is silently dropped.  Returns `null` (here `none`)
when the entry does not exist (Prisma error P2025). -/
def update (s : LibraryState) (id : Nat) (u : BorrowingUpdateData) :
    Option Borrowing × LibraryState :=
  match findBorrowing s id with
  | none => (none, s)
  | some _ =>
    let borrowings := s.borrowings.map (fun b =>
      if b.id == id then
        match u.returnDate with
        | some d => { b with returnDate := some d }
        | none => b
      else b)
    let s1 : LibraryState := { s with borrowings := borrowings }
    (findBorrowing s1 id, s1)

end BorrowingRepository

def msgIdsRequired : String := "Borrower ID and Book ID are required"

def msgBorrowerNotFound : String := "Borrower not found"

def msgBookNotFound : String := "Book not found"

def msgBookNotAvailable : String := "Book is not available for checkout"

def msgBorrowingIdRequired : String := "Borrowing ID is required"

def msgBorrowingNotFound : String := "Borrowing record not found"

def msgAlreadyReturned : String := "Book has already been returned"

def msgExtendInvalid : String :=
  "Valid borrowing ID and positive extension days are required"

def msgCannotExtendReturned : String := "Cannot extend due date for returned book"

def msgTotalQuantityPositive : String := "Total quantity must be greater than 0"

def msgCannotReduceBelowBorrowed : String :=
  "Cannot reduce total quantity below borrowed quantity"

namespace BorrowingService

/-- `BorrowingService.checkoutBook(borrowerId, bookId)` — the variant at
`src/services/BorrowingService.js`: validates the ids (JS `!borrowerId`
treats 0 as missing), requires borrower and book to exist, rejects when the
cached `book.availableQuantity <= 0`, then creates the ledger entry and
calls `bookRepository.update(bookId, { availableQuantity:
book.availableQuantity - 1 })` (a patch which `BookRepository.update`
drops). -/
def checkoutBook (s : LibraryState) (now : Time) (borrowerId bookId : Nat) :
    Except String Borrowing × LibraryState :=
  if borrowerId == 0 || bookId == 0 then (Except.error msgIdsRequired, s)
  else
    match findBorrower s borrowerId with
    | none => (Except.error msgBorrowerNotFound, s)
    | some _ =>
      match findBook s bookId with
      | none => (Except.error msgBookNotFound, s)
      | some book =>
        if book.availableQuantity ≤ 0 then (Except.error msgBookNotAvailable, s)
        else
          let r1 := BorrowingRepository.create s now borrowerId bookId
          let r2 := BookRepository.update r1.2 bookId
            { availableQuantity := some (book.availableQuantity - 1) }
          (Except.ok r1.1, r2.2)

/-- `BorrowingService.returnBook(borrowingId, returnDate)` — the variant at
`src/services/BorrowingService.js`: requires the entry to exist, rejects
when `returnDate` is already set, sets the return date through
`BorrowingRepository.update`, then (when the book still exists) passes an
`availableQuantity + 1` patch to `BookRepository.update` (dropped there). -/
def returnBook (s : LibraryState) (borrowingId : Nat) (returnDate : Time) :
    Except String (Option Borrowing) × LibraryState :=
  if borrowingId == 0 then (Except.error msgBorrowingIdRequired, s)
  else
    match findBorrowing s borrowingId with
    | none => (Except.error msgBorrowingNotFound, s)
    | some borrowing =>
      if borrowing.returnDate.isSome then (Except.error msgAlreadyReturned, s)
      else
        let r1 := BorrowingRepository.update s borrowingId
          { returnDate := some returnDate }
        let s2 :=
          match findBook r1.2 borrowing.bookId with
          | some book =>
            (BookRepository.update r1.2 borrowing.bookId
              { availableQuantity := some (book.availableQuantity + 1) }).2
          | none => r1.2
        (Except.ok r1.1, s2)

/-- `BorrowingService.extendDueDate(borrowingId, extensionDays)` (identical
in both service variants): validates the inputs, rejects returned entries,
computes `newDueDate = dueDate + extensionDays * 24*60*60*1000` and passes
it to `BorrowingRepository.update` as a `dueDate` field — which that
repository method does not copy, so the stored entry is unchanged. -/
def extendDueDate (s : LibraryState) (borrowingId : Nat) (extensionDays : Int) :
    Except String (Option Borrowing) × LibraryState :=
  if borrowingId == 0 || extensionDays ≤ 0 then (Except.error msgExtendInvalid, s)
  else
    match findBorrowing s borrowingId with
    | none => (Except.error msgBorrowingNotFound, s)
    | some borrowing =>
      if borrowing.returnDate.isSome then
        (Except.error msgCannotExtendReturned, s)
      else
        let newDueDate := borrowing.dueDate + extensionDays * msPerDay
        let r1 := BorrowingRepository.update s borrowingId
          { dueDate := some newDueDate }
        (Except.ok r1.1, r1.2)

end BorrowingService

namespace BorrowingServiceLedger

/-- `BorrowingService.checkoutBook(borrowerId, bookId)` — the ledger-recompute
variant: availability is computed as `book.totalQuantity -
activeBorrowings.length` from `findByBook(bookId, { activeOnly: true })`,
and after creating the entry the book is recomputed through
`BookRepository.updateAvailability`. -/
def checkoutBook (s : LibraryState) (now : Time) (borrowerId bookId : Nat) :
    Except String Borrowing × LibraryState :=
  if borrowerId == 0 || bookId == 0 then (Except.error msgIdsRequired, s)
  else
    match findBorrower s borrowerId with
    | none => (Except.error msgBorrowerNotFound, s)
    | some _ =>
      match findBook s bookId with
      | none => (Except.error msgBookNotFound, s)
      | some book =>
        let currentBorrowedQuantity : Int := (activeByBook s bookId).length
        let availableQuantity := book.totalQuantity - currentBorrowedQuantity
        if availableQuantity ≤ 0 then (Except.error msgBookNotAvailable, s)
        else
          let r1 := BorrowingRepository.create s now borrowerId bookId
          let r2 := BookRepository.updateAvailability r1.2 bookId
          (Except.ok r1.1, r2.2)

/-- `BorrowingService.returnBook(borrowingId, returnDate)` — the
ledger-recompute variant: after setting the return date it recomputes the
book through `BookRepository.updateAvailability`. -/
def returnBook (s : LibraryState) (borrowingId : Nat) (returnDate : Time) :
    Except String (Option Borrowing) × LibraryState :=
  if borrowingId == 0 then (Except.error msgBorrowingIdRequired, s)
  else
    match findBorrowing s borrowingId with
    | none => (Except.error msgBorrowingNotFound, s)
    | some borrowing =>
      if borrowing.returnDate.isSome then (Except.error msgAlreadyReturned, s)
      else
        let r1 := BorrowingRepository.update s borrowingId
          { returnDate := some returnDate }
        let r2 := BookRepository.updateAvailability r1.2 borrowing.bookId
        (Except.ok r1.1, r2.2)

end BorrowingServiceLedger

namespace BookService

/-- The `totalQuantity` path of `BookService.updateBook(id, updateData)`:
requires the book to exist, runs `_validateQuantityUpdate` (reject
`newTotalQuantity <= 0`, reject `newTotalQuantity < totalQuantity -
availableQuantity`), persists the new total through `BookRepository.update`,
then runs `updateBookAvailability` (a ledger recompute) and returns the
re-read book. -/
def updateBook (s : LibraryState) (id : Nat) (newTotalQuantity : Int) :
    Except String (Option Book) × LibraryState :=
  match findBook s id with
  | none => (Except.error msgBookNotFound, s)
  | some existingBook =>
    if newTotalQuantity ≤ 0 then (Except.error msgTotalQuantityPositive, s)
    else
      let borrowedQuantity :=
        existingBook.totalQuantity - existingBook.availableQuantity
      if newTotalQuantity < borrowedQuantity then
        (Except.error msgCannotReduceBelowBorrowed, s)
      else
        let r1 := BookRepository.update s id
          { totalQuantity := some newTotalQuantity }
        let r2 := BookRepository.updateAvailability r1.2 id
        (Except.ok (findBook r2.2 id), r2.2)

end BookService

/-- The `ORDER BY dueDate ASC` comparison of `BorrowingRepository.findOverdue`. -/
def leDue (a b : Borrowing) : Prop := a.dueDate ≤ b.dueDate

instance : DecidableRel leDue := fun a b => Int.decLe a.dueDate b.dueDate

instance : IsTotal Borrowing leDue := ⟨fun a b => Int.le_total a.dueDate b.dueDate⟩

instance : IsTrans Borrowing leDue := ⟨fun _ _ _ h1 h2 => le_trans h1 h2⟩

namespace BorrowingRepository

/-- The `skip` clause: applied only when the offset option is present and
truthy (`if (options.offset) queryOptions.skip = options.offset` treats 0
as absent). -/
def applySkip (off : Option Nat) (l : List Borrowing) : List Borrowing :=
  match off with
  | some o => if o == 0 then l else l.drop o
  | none => l

/-- The `take` clause: applied only when the limit option is present and
truthy (`if (options.limit) queryOptions.take = options.limit` treats 0 as
absent). -/
def applyTake (lim : Option Nat) (l : List Borrowing) : List Borrowing :=
  match lim with
  | some k => if k == 0 then l else l.take k
  | none => l

/-- `BorrowingRepository.findOverdue({ asOfDate, limit, offset })`: selects
ledger entries with `returnDate: null` and `dueDate < asOfDate`, orders them
by `dueDate` ascending, applies `skip` then `take`, and maps each row to
the pair of the row and its `daysOverdue` annotation. -/
def findOverdue (s : LibraryState) (asOf : Time) (lim off : Option Nat) :
    List (Borrowing × Int) :=
  let rows := s.borrowings.filter
    (fun b => b.returnDate.isNone && decide (b.dueDate < asOf))
  let rows := List.insertionSort leDue rows
  let rows := applySkip off rows
  let rows := applyTake lim rows
  rows.map (fun b => (b, Borrowing.getDaysOverdue b asOf))

end BorrowingRepository

/-- The pagination metadata of the overdue listing response. -/
structure OverdueMeta where
  total : Nat
  hasNext : Bool
  hasPrevious : Bool
  deriving Repr, DecidableEq

namespace BorrowingController

/-- `BorrowingController.getOverdueBooks`: fetches the page through the
service/repository (`limit`/`offset` forwarded as parsed, `none` when the
query parameter is absent) and builds the metadata exactly as the source
does: `total: overdueBooks.length`, `hasNext: overdueBooks.length ===
(parseInt(limit) || 10)` (an absent or zero limit falls back to 10) and
`hasPrevious: (parseInt(offset) || 0) > 0`. -/
def getOverdueBooks (s : LibraryState) (asOf : Time) (lim off : Option Nat) :
    List (Borrowing × Int) × OverdueMeta :=
  let overdueBooks := BorrowingRepository.findOverdue s asOf lim off
  let effectiveLimit : Nat :=
    match lim with
    | some k => if k == 0 then 10 else k
    | none => 10
  let offsetValue : Nat :=
    match off with
    | some o => o
    | none => 0
  (overdueBooks,
    { total := overdueBooks.length
      hasNext := overdueBooks.length == effectiveLimit
      hasPrevious := decide (0 < offsetValue) })

end BorrowingController

/-- Replace each `"` by `""` — `str.replace(/"/g, '""')` in `toCSV`. -/
def doubleQuotes (s : String) : String :=
  String.mk (s.data.foldr
    (fun c acc => if c = '"' then '"' :: '"' :: acc else c :: acc) [])

/-- The quoting test of `toCSV`: `/[",\n\r]/.test(str)`. -/
def needsQuoting (s : String) : Bool :=
  s.data.any (fun c => c = ',' || c = '"' || c = '\n' || c = '\r')

/-- `escapeCell` of `src/utils/csv.js`.  `none` models a JS `null` or
`undefined` cell (rendered as the empty string); `some str` models any other
value after JS stringification (`value instanceof Date ?
value.toISOString() : String(value)`). -/
def escapeCell : Option String → String
  | none => ""
  | some s =>
    let escaped := doubleQuotes s
    if needsQuoting s then "\"" ++ escaped ++ "\"" else escaped

/-- A CSV row object: an association list from column name to cell value
(`none` for a `null`/`undefined` property). -/
abbrev Row := List (String × Option String)

/-- JS property lookup `row[c]`: `none` both for an absent key and for a
stored `null`. -/
def rowGet (row : Row) (c : String) : Option String :=
  match row.find? (fun kv => kv.1 == c) with
  | some kv => kv.2
  | none => none

/-- JS `Array.prototype.join(sep)`. -/
def joinSep (sep : String) : List String → String
  | [] => ""
  | [x] => x
  | x :: xs => x ++ sep ++ joinSep sep xs

/-- `toCSV(rows, columns)` of `src/utils/csv.js`: header row from the given
columns (when no columns are passed, the sorted union of the row keys),
then one line per row with each cell escaped, joined by `"\n"`, the empty
body dropped (`[header, body].filter(Boolean)`), and a trailing newline. -/
def toCSV (rows : List Row) (columns : List String) : String :=
  let headerColumns :=
    if columns.isEmpty then
      List.insertionSort (fun a b => a ≤ b)
        ((rows.foldl (fun acc row => acc ++ row.map Prod.fst) []).dedup)
    else columns
  let header := joinSep "," (headerColumns.map (fun c => escapeCell (some c)))
  let body := joinSep "\n"
    (rows.map (fun row =>
      joinSep "," (headerColumns.map (fun c => escapeCell (rowGet row c)))))
  joinSep "\n" ([header, body].filter (fun x => !x.isEmpty)) ++ "\n"

namespace BorrowingController

/-- The column list of `exportBorrowingsLastMonthCSV`. -/
def plainExportColumns : List String :=
  ["id", "borrowerId", "borrowerName", "borrowerEmail", "bookId", "bookTitle",
    "bookAuthor", "isbn", "checkoutDate", "dueDate", "returnDate"]

/-- The column list of `exportOverdueLastMonthCSV` — it ends
`checkoutDate, dueDate, daysOverdue` and does **not** contain `returnDate`. -/
def overdueExportColumns : List String :=
  ["id", "borrowerId", "borrowerName", "borrowerEmail", "bookId", "bookTitle",
    "bookAuthor", "isbn", "checkoutDate", "dueDate", "daysOverdue"]

/-- The serialization step of `exportBorrowingsLastMonthCSV`, applied to the
already-shaped row objects. -/
def exportBorrowingsLastMonthCSV (rows : List Row) : String :=
  toCSV rows plainExportColumns

/-- The serialization step of `exportOverdueLastMonthCSV`, applied to the
already-shaped row objects. -/
def exportOverdueLastMonthCSV (rows : List Row) : String :=
  toCSV rows overdueExportColumns

end BorrowingController

/-- Days from 1970-01-01 to the Gregorian civil date `y-m-d` (the standard
civil-from-days conversion); used only to state calendar-date scenarios. -/
def daysFromCivil (y m d : Int) : Int :=
  let yAdj := if m ≤ 2 then y - 1 else y
  let era := (if 0 ≤ yAdj then yAdj else yAdj - 399) / 400
  let yoe := yAdj - era * 400
  let mp := if 2 < m then m - 3 else m + 9
  let doy := (153 * mp + 2) / 5 + d - 1
  let doe := yoe * 365 + yoe / 4 - yoe / 100 + doy
  era * 146097 + doe - 719468

/-- The epoch-millisecond timestamp of midnight UTC on `y-m-d`. -/
def dateMs (y m d : Int) : Time := daysFromCivil y m d * msPerDay

/-- One service-level operation of the system (the state-changing service
entry points reachable from the HTTP layer), for stating properties of
arbitrary operation sequences.  `checkout`/`ret` use the cached-quantity
service variant, `checkoutLedger`/`retLedger` the ledger-recompute variant,
`extend` is `BorrowingService.extendDueDate` and `updateTotal` is the
`totalQuantity` path of `BookService.updateBook`. -/
inductive Op where
  | checkout (now : Time) (borrowerId bookId : Nat)
  | checkoutLedger (now : Time) (borrowerId bookId : Nat)
  | ret (returnDate : Time) (borrowingId : Nat)
  | retLedger (returnDate : Time) (borrowingId : Nat)
  | extend (borrowingId : Nat) (extensionDays : Int)
  | updateTotal (bookId : Nat) (newTotalQuantity : Int)
  deriving Repr, DecidableEq

/-- The state transition of one operation (its result value discarded). -/
def Op.apply : Op → LibraryState → LibraryState
  | .checkout now borrowerId bookId, s =>
    (BorrowingService.checkoutBook s now borrowerId bookId).2
  | .checkoutLedger now borrowerId bookId, s =>
    (BorrowingServiceLedger.checkoutBook s now borrowerId bookId).2
  | .ret returnDate borrowingId, s =>
    (BorrowingService.returnBook s borrowingId returnDate).2
  | .retLedger returnDate borrowingId, s =>
    (BorrowingServiceLedger.returnBook s borrowingId returnDate).2
  | .extend borrowingId extensionDays, s =>
    (BorrowingService.extendDueDate s borrowingId extensionDays).2
  | .updateTotal bookId newTotalQuantity, s =>
    (BookService.updateBook s bookId newTotalQuantity).2

/-- The spec's book invariant: the stored `availableQuantity` equals
`totalQuantity` minus the number of active ledger entries of the book, and
`0 ≤ availableQuantity ≤ totalQuantity`. -/
def availabilityInvariant (s : LibraryState) : Prop :=
  ∀ bk ∈ s.books,
    bk.availableQuantity = bk.totalQuantity - ((activeByBook s bk.id).length : Int) ∧
    0 ≤ bk.availableQuantity ∧ bk.availableQuantity ≤ bk.totalQuantity

instance (s : LibraryState) : Decidable (availabilityInvariant s) := by
  unfold availabilityInvariant
  infer_instance

/-- Whether a service call succeeded. -/
def isOkResult {α : Type} : Except String α → Bool
  | Except.ok _ => true
  | Except.error _ => false

/-- Fixture: a freshly created single-copy book and one registered borrower. -/
def s0 : LibraryState :=
  { books := [{ id := 1, totalQuantity := 1, availableQuantity := 1 }]
    borrowers := [{ id := 1 }]
    borrowings := []
    nextBorrowingId := 1 }

/-- Fixture: an overdue ledger entry of book 1 / borrower 1. -/
def overdueEntry (i : Nat) (due : Time) : Borrowing :=
  { id := i, borrowerId := 1, bookId := 1, checkoutDate := 0, dueDate := due
    returnDate := none }

/-- Fixture: three active overdue entries against a three-copy book. -/
def sOverdue3 : LibraryState :=
  { books := [{ id := 1, totalQuantity := 3, availableQuantity := 0 }]
    borrowers := [{ id := 1 }]
    borrowings := [overdueEntry 1 10, overdueEntry 2 20, overdueEntry 3 30]
    nextBorrowingId := 4 }

/-- Fixture: exactly two active overdue entries against a two-copy book. -/
def sOverdue2 : LibraryState :=
  { books := [{ id := 1, totalQuantity := 2, availableQuantity := 0 }]
    borrowers := [{ id := 1 }]
    borrowings := [overdueEntry 1 10, overdueEntry 2 20]
    nextBorrowingId := 3 }

lemma checkoutA_borrowings (s : LibraryState) (now : Time) (br bk : Nat) :
    ∃ t, (BorrowingService.checkoutBook s now br bk).2.borrowings =
      s.borrowings ++ t := by
  dsimp only [BorrowingService.checkoutBook, BorrowingRepository.create,
    BookRepository.update]
  split
  · exact ⟨[], by simp⟩
  · split
    · exact ⟨[], by simp⟩
    · split
      · exact ⟨[], by simp⟩
      · split
        · exact ⟨[], by simp⟩
        · refine ⟨[(BorrowingRepository.create s now br bk).1], ?_⟩
          split <;> rfl

lemma checkoutB_borrowings (s : LibraryState) (now : Time) (br bk : Nat) :
    ∃ t, (BorrowingServiceLedger.checkoutBook s now br bk).2.borrowings =
      s.borrowings ++ t := by
  dsimp only [BorrowingServiceLedger.checkoutBook, BorrowingRepository.create,
    BookRepository.updateAvailability]
  split
  · exact ⟨[], by simp⟩
  · split
    · exact ⟨[], by simp⟩
    · split
      · exact ⟨[], by simp⟩
      · split
        · exact ⟨[], by simp⟩
        · refine ⟨[(BorrowingRepository.create s now br bk).1], ?_⟩
          split <;> rfl

lemma updateBook_borrowings (s : LibraryState) (id : Nat) (q : Int) :
    (BookService.updateBook s id q).2.borrowings = s.borrowings := by
  dsimp only [BookService.updateBook, BookRepository.updateAvailability,
    BookRepository.update]
  split
  · rfl
  · split
    · rfl
    · split
      · rfl
      · split <;> split <;> rfl

/-- The per-entry effect of a successful return on the ledger list. -/
def setReturnDate (i : Nat) (d : Time) (b : Borrowing) : Borrowing :=
  if b.id == i then { b with returnDate := some d } else b

lemma eq_of_mem_of_findBorrowing {l : List Borrowing} {b f : Borrowing} {i : Nat}
    (huniq : (l.map Borrowing.id).Nodup) (hb : b ∈ l) (hid : b.id = i)
    (hf : l.find? (fun x => x.id == i) = some f) : b = f := by
  have hfmem := List.mem_of_find?_eq_some hf
  have hfid : f.id = i := by simpa using List.find?_some hf
  exact List.inj_on_of_nodup_map huniq hb hfmem (hid.trans hfid.symm)

lemma returnA_borrowings (s : LibraryState) (i : Nat) (d : Time) :
    (BorrowingService.returnBook s i d).2.borrowings = s.borrowings ∨
    (∃ f, findBorrowing s i = some f ∧ f.returnDate = none ∧
      (BorrowingService.returnBook s i d).2.borrowings =
        s.borrowings.map (setReturnDate i d)) := by
  dsimp only [BorrowingService.returnBook, BorrowingRepository.update,
    BookRepository.update]
  split
  · exact Or.inl rfl
  · split
    · exact Or.inl rfl
    · rename_i borrowing heq
      split
      · exact Or.inl rfl
      · rename_i hnotret
        refine Or.inr ⟨borrowing, heq, Option.not_isSome_iff_eq_none.mp hnotret, ?_⟩
        dsimp only [setReturnDate]
        split <;> first | rfl | (split <;> rfl)

lemma returnB_borrowings (s : LibraryState) (i : Nat) (d : Time) :
    (BorrowingServiceLedger.returnBook s i d).2.borrowings = s.borrowings ∨
    (∃ f, findBorrowing s i = some f ∧ f.returnDate = none ∧
      (BorrowingServiceLedger.returnBook s i d).2.borrowings =
        s.borrowings.map (setReturnDate i d)) := by
  dsimp only [BorrowingServiceLedger.returnBook, BorrowingRepository.update,
    BookRepository.updateAvailability]
  split
  · exact Or.inl rfl
  · split
    · exact Or.inl rfl
    · rename_i borrowing heq
      split
      · exact Or.inl rfl
      · rename_i hnotret
        refine Or.inr ⟨borrowing, heq, Option.not_isSome_iff_eq_none.mp hnotret, ?_⟩
        dsimp only [setReturnDate]
        split <;> rfl

lemma extend_borrowings (s : LibraryState) (i : Nat) (days : Int) :
    (BorrowingService.extendDueDate s i days).2.borrowings = s.borrowings := by
  dsimp only [BorrowingService.extendDueDate, BorrowingRepository.update]
  split
  · rfl
  · split
    · rfl
    · rename_i borrowing heq
      split
      · rfl
      · simp

/-- The frame relation of C6: every ledger entry of the pre-state survives
into the post-state with the same identity, borrower, book, checkout date
and due date, its return date either unchanged or newly set (never cleared,
never overwritten). -/
def borrowingFieldsPreserved (s t : LibraryState) : Prop :=
  ∀ b ∈ s.borrowings, ∃ b', b' ∈ t.borrowings ∧
    b'.id = b.id ∧ b'.borrowerId = b.borrowerId ∧ b'.bookId = b.bookId ∧
    b'.checkoutDate = b.checkoutDate ∧ b'.dueDate = b.dueDate ∧
    (b'.returnDate = b.returnDate ∨ (b.returnDate = none ∧ b'.returnDate ≠ none))

lemma frame_core (op : Op) (s : LibraryState)
    (huniq : (s.borrowings.map Borrowing.id).Nodup) :
    borrowingFieldsPreserved s (op.apply s) := by
  intro b hb
  cases op with
  | checkout now br bk =>
    obtain ⟨t, ht⟩ := checkoutA_borrowings s now br bk
    exact ⟨b, by rw [Op.apply, ht]; exact List.mem_append_left t hb,
      rfl, rfl, rfl, rfl, rfl, Or.inl rfl⟩
  | checkoutLedger now br bk =>
    obtain ⟨t, ht⟩ := checkoutB_borrowings s now br bk
    exact ⟨b, by rw [Op.apply, ht]; exact List.mem_append_left t hb,
      rfl, rfl, rfl, rfl, rfl, Or.inl rfl⟩
  | ret d i =>
    rcases returnA_borrowings s i d with h | ⟨f, hf, hfnone, h⟩
    · exact ⟨b, by rw [Op.apply, h]; exact hb, rfl, rfl, rfl, rfl, rfl, Or.inl rfl⟩
    · refine ⟨setReturnDate i d b, by rw [Op.apply, h]; exact List.mem_map_of_mem _ hb, ?_⟩
      by_cases hid : b.id = i
      · have hbf : b = f := eq_of_mem_of_findBorrowing huniq hb hid hf
        have : setReturnDate i d b = { b with returnDate := some d } := by
          simp [setReturnDate, hid]
        rw [this]
        exact ⟨rfl, rfl, rfl, rfl, rfl, Or.inr ⟨by rw [hbf]; exact hfnone, by simp⟩⟩
      · have : setReturnDate i d b = b := by
          simp [setReturnDate, hid]
        rw [this]
        exact ⟨rfl, rfl, rfl, rfl, rfl, Or.inl rfl⟩
  | retLedger d i =>
    rcases returnB_borrowings s i d with h | ⟨f, hf, hfnone, h⟩
    · exact ⟨b, by rw [Op.apply, h]; exact hb, rfl, rfl, rfl, rfl, rfl, Or.inl rfl⟩
    · refine ⟨setReturnDate i d b, by rw [Op.apply, h]; exact List.mem_map_of_mem _ hb, ?_⟩
      by_cases hid : b.id = i
      · have hbf : b = f := eq_of_mem_of_findBorrowing huniq hb hid hf
        have : setReturnDate i d b = { b with returnDate := some d } := by
          simp [setReturnDate, hid]
        rw [this]
        exact ⟨rfl, rfl, rfl, rfl, rfl, Or.inr ⟨by rw [hbf]; exact hfnone, by simp⟩⟩
      · have : setReturnDate i d b = b := by
          simp [setReturnDate, hid]
        rw [this]
        exact ⟨rfl, rfl, rfl, rfl, rfl, Or.inl rfl⟩
  | extend i days =>
    refine ⟨b, ?_, rfl, rfl, rfl, rfl, rfl, Or.inl rfl⟩
    rw [Op.apply, extend_borrowings s i days]
    exact hb
  | updateTotal bk q =>
    refine ⟨b, ?_, rfl, rfl, rfl, rfl, rfl, Or.inl rfl⟩
    rw [Op.apply, updateBook_borrowings s bk q]
    exact hb

/-- Fixture: a ledger entry whose return date is already set. -/
def returnedEntry : Borrowing :=
  { id := 1
    borrowerId := 1
    bookId := 1
    checkoutDate := 0
    dueDate := 100
    returnDate := some 50 }

/-- Fixture: a state holding only the returned entry. -/
def sReturned : LibraryState :=
  { books := [{ id := 1, totalQuantity := 1, availableQuantity := 1 }]
    borrowers := [{ id := 1 }]
    borrowings := [returnedEntry]
    nextBorrowingId := 2 }

/-- C3.  When the borrowing exists (under a positive id, as database ids
are) and its `returnDate` is already set, `returnBook` fails with
`AlreadyReturned` in both service variants and returns the state unchanged
(no field of the borrowing, no book quantity is touched); moreover no
operation of the system ever moves a returned entry out of the returned
state or changes its return date. -/
theorem returnBook_alreadyReturned_mutates_nothing (s : LibraryState) (i : Nat)
    (now d : Time) (b : Borrowing) (hi : i ≠ 0)
    (hfind : findBorrowing s i = some b) (hret : b.returnDate = some d) :
    BorrowingService.returnBook s i now = (Except.error msgAlreadyReturned, s) ∧
    BorrowingServiceLedger.returnBook s i now = (Except.error msgAlreadyReturned, s) ∧
    (∀ op : Op, (s.borrowings.map Borrowing.id).Nodup →
      ∀ c ∈ s.borrowings, ∀ e, c.returnDate = some e →
        ∃ c', c' ∈ (op.apply s).borrowings ∧ c'.id = c.id ∧ c'.returnDate = some e) := by
  have hi0 : (i == 0) = false := by simpa using hi
  refine ⟨?_, ?_, ?_⟩
  · simp [BorrowingService.returnBook, hi0, hfind, hret]
  · simp [BorrowingServiceLedger.returnBook, hi0, hfind, hret]
  · intro op huniq c hc e he
    obtain ⟨c', hc', hcid, _, _, _, _, hcret⟩ := frame_core op s huniq c hc
    rcases hcret with h | ⟨hnone, _⟩
    · exact ⟨c', hc', hcid, by rw [h, he]⟩
    · rw [he] at hnone
      cases hnone

/-- C3 witness: the hypotheses hold on `sReturned` and the theorem applies. -/
theorem returnBook_alreadyReturned_mutates_nothing_witness :
    (1 : Nat) ≠ 0 ∧
    findBorrowing sReturned 1 = some returnedEntry ∧
    BorrowingService.returnBook sReturned 1 77 =
      (Except.error msgAlreadyReturned, sReturned) :=
  ⟨by decide, by decide,
    (returnBook_alreadyReturned_mutates_nothing sReturned 1 77 50 returnedEntry
      (by decide) (by decide) rfl).1⟩

/-- C6.  Every operation of the system — both checkout variants, both
return variants, `extendDueDate` and the totalQuantity update — preserves
every existing ledger entry together with its `borrowerId`, `bookId`,
`checkoutDate` and `dueDate`; only `returnDate` can change, and only from
`none` to a set value (never cleared or overwritten).  In particular
`extendDueDate` leaves `dueDate` unchanged, because
`BorrowingRepository.update` does not copy a `dueDate` field. -/
theorem borrowing_fields_immutable (op : Op) (s : LibraryState)
    (huniq : (s.borrowings.map Borrowing.id).Nodup) :
    borrowingFieldsPreserved s (op.apply s) :=
  frame_core op s huniq

/-- C6 witness: applying the theorem to the due-date extension operation on
a concrete state; the unique-id hypothesis holds by evaluation. -/
theorem borrowing_fields_immutable_witness :
    (sOverdue2.borrowings.map Borrowing.id).Nodup ∧
    borrowingFieldsPreserved sOverdue2 ((Op.extend 1 5).apply sOverdue2) :=
  ⟨by decide, borrowing_fields_immutable (Op.extend 1 5) sOverdue2 (by decide)⟩

/-- C4.  Every borrowing returned by a successful checkout (either service
variant) has `checkoutDate = now`, `returnDate = null` and `dueDate` exactly
14 days (14 × 86400000 ms) after the checkout date; in particular a
checkout dated 2024-01-01 is due 2024-01-15. -/
theorem checkout_creates_correct_dates (s : LibraryState) (now : Time)
    (br bk : Nat) (b : Borrowing)
    (h : (BorrowingService.checkoutBook s now br bk).1 = Except.ok b ∨
      (BorrowingServiceLedger.checkoutBook s now br bk).1 = Except.ok b) :
    b.checkoutDate = now ∧ b.returnDate = none ∧
    b.dueDate = now + Borrowing.LOAN_PERIOD_DAYS * msPerDay ∧
    (now = dateMs 2024 1 1 → b.dueDate = dateMs 2024 1 15) := by
  have main : b.checkoutDate = now ∧ b.returnDate = none ∧
      b.dueDate = now + Borrowing.LOAN_PERIOD_DAYS * msPerDay := by
    rcases h with h | h
    · dsimp only [BorrowingService.checkoutBook, BorrowingRepository.create,
        BookRepository.update] at h
      split at h
      · cases h
      · split at h
        · cases h
        · split at h
          · cases h
          · split at h
            · cases h
            · cases h
              exact ⟨rfl, rfl, rfl⟩
    · dsimp only [BorrowingServiceLedger.checkoutBook, BorrowingRepository.create,
        BookRepository.updateAvailability] at h
      split at h
      · cases h
      · split at h
        · cases h
        · split at h
          · cases h
          · split at h
            · cases h
            · cases h
              exact ⟨rfl, rfl, rfl⟩
  refine ⟨main.1, main.2.1, main.2.2, ?_⟩
  intro hnow
  rw [main.2.2, hnow]
  decide

/-- C4 witness: a checkout on `s0` dated 2024-01-01 succeeds and the created
entry carries the claimed dates, 2024-01-15 among them. -/
theorem checkout_creates_correct_dates_witness :
    ((BorrowingService.checkoutBook s0 (dateMs 2024 1 1) 1 1).1 =
      Except.ok (BorrowingRepository.create s0 (dateMs 2024 1 1) 1 1).1) ∧
    ((BorrowingRepository.create s0 (dateMs 2024 1 1) 1 1).1.checkoutDate =
        dateMs 2024 1 1 ∧
      (BorrowingRepository.create s0 (dateMs 2024 1 1) 1 1).1.returnDate = none ∧
      (BorrowingRepository.create s0 (dateMs 2024 1 1) 1 1).1.dueDate =
        dateMs 2024 1 1 + Borrowing.LOAN_PERIOD_DAYS * msPerDay ∧
      (dateMs 2024 1 1 = dateMs 2024 1 1 →
        (BorrowingRepository.create s0 (dateMs 2024 1 1) 1 1).1.dueDate =
          dateMs 2024 1 15)) :=
  ⟨by decide,
    checkout_creates_correct_dates s0 (dateMs 2024 1 1) 1 1 _ (Or.inl (by decide))⟩

lemma applySkip_sublist (off : Option Nat) (l : List Borrowing) :
    List.Sublist (BorrowingRepository.applySkip off l) l := by
  rcases off with _ | o
  · exact List.Sublist.refl l
  · dsimp only [BorrowingRepository.applySkip]
    split
    · exact List.Sublist.refl l
    · exact List.drop_sublist o l

lemma applyTake_sublist (lim : Option Nat) (l : List Borrowing) :
    List.Sublist (BorrowingRepository.applyTake lim l) l := by
  rcases lim with _ | k
  · exact List.Sublist.refl l
  · dsimp only [BorrowingRepository.applyTake]
    split
    · exact List.Sublist.refl l
    · exact List.take_sublist k l

lemma findOverdue_mem (s : LibraryState) (asOf : Time) (lim off : Option Nat)
    (e : Borrowing × Int)
    (he : e ∈ BorrowingRepository.findOverdue s asOf lim off) :
    e.1 ∈ s.borrowings ∧ e.1.returnDate = none ∧ e.1.dueDate < asOf ∧
    e.2 = Borrowing.getDaysOverdue e.1 asOf := by
  dsimp only [BorrowingRepository.findOverdue] at he
  obtain ⟨b, hb, heq⟩ := List.mem_map.mp he
  have h1 : b ∈ List.insertionSort leDue (s.borrowings.filter
      (fun x => x.returnDate.isNone && decide (x.dueDate < asOf))) :=
    (applySkip_sublist off _).subset ((applyTake_sublist lim _).subset hb)
  have h2 := (List.mem_insertionSort leDue).mp h1
  obtain ⟨hmem, hpred⟩ := List.mem_filter.mp h2
  obtain ⟨hnone, hlt⟩ := Bool.and_eq_true_iff.mp hpred
  subst heq
  exact ⟨hmem, Option.isNone_iff_eq_none.mp hnone, of_decide_eq_true hlt, rfl⟩

lemma getDaysOverdue_of_overdue {b : Borrowing} {asOf : Time}
    (hnone : b.returnDate = none) (hlt : b.dueDate < asOf) :
    Borrowing.getDaysOverdue b asOf = ceilDiv (asOf - b.dueDate) msPerDay := by
  simp [Borrowing.getDaysOverdue, Borrowing.isOverdue, hnone, hlt]

/-- C5.  The unpaginated overdue listing is sorted by due date ascending and
is a permutation of exactly the active (unreturned) ledger entries strictly
past due as of `asOfDate`; every listed entry is annotated with
`daysOverdue = ceil((asOfDate − dueDate) / 86400000)`; `getDaysOverdue` is 0
for anything not overdue; and no entry with a set return date ever appears
in any (even paginated) overdue listing. -/
theorem overdue_listing_correct (s : LibraryState) (asOf : Time) :
    List.Pairwise (fun e f : Borrowing × Int => e.1.dueDate ≤ f.1.dueDate)
      (BorrowingRepository.findOverdue s asOf none none) ∧
    ((BorrowingRepository.findOverdue s asOf none none).map Prod.fst).Perm
      (s.borrowings.filter
        (fun b => b.returnDate.isNone && decide (b.dueDate < asOf))) ∧
    (∀ e ∈ BorrowingRepository.findOverdue s asOf none none,
      e.1 ∈ s.borrowings ∧ e.1.returnDate = none ∧ e.1.dueDate < asOf ∧
      e.2 = ceilDiv (asOf - e.1.dueDate) msPerDay) ∧
    (∀ b : Borrowing, Borrowing.isOverdue b asOf = false →
      Borrowing.getDaysOverdue b asOf = 0) ∧
    (∀ lim off : Option Nat, ∀ e ∈ BorrowingRepository.findOverdue s asOf lim off,
      e.1.returnDate = none) := by
  refine ⟨?_, ?_, ?_, ?_, ?_⟩
  · dsimp only [BorrowingRepository.findOverdue, BorrowingRepository.applySkip,
      BorrowingRepository.applyTake]
    exact (List.sorted_insertionSort leDue _).map _ (fun a b h => h)
  · dsimp only [BorrowingRepository.findOverdue, BorrowingRepository.applySkip,
      BorrowingRepository.applyTake]
    rw [List.map_map]
    have hcomp : (Prod.fst ∘ fun b : Borrowing =>
        (b, Borrowing.getDaysOverdue b asOf)) = id := rfl
    rw [hcomp, List.map_id]
    exact List.perm_insertionSort leDue _
  · intro e he
    obtain ⟨hmem, hnone, hlt, hd⟩ := findOverdue_mem s asOf none none e he
    exact ⟨hmem, hnone, hlt, by rw [hd, getDaysOverdue_of_overdue hnone hlt]⟩
  · intro b h
    simp [Borrowing.getDaysOverdue, h]
  · intro lim off e he
    exact (findOverdue_mem s asOf lim off e he).2.1

/-- C5 witness: on `sOverdue3` as of time 100 the earliest-due entry appears
with `daysOverdue = 1 = ceil(90 / 86400000)`, and the theorem's
characterization applies to it. -/
theorem overdue_listing_correct_witness :
    ((overdueEntry 1 10, 1) ∈ BorrowingRepository.findOverdue sOverdue3 100 none none) ∧
    ((overdueEntry 1 10) ∈ sOverdue3.borrowings ∧
      (overdueEntry 1 10).returnDate = none ∧
      (overdueEntry 1 10).dueDate < 100 ∧
      (1 : Int) = ceilDiv (100 - (overdueEntry 1 10).dueDate) msPerDay) :=
  ⟨by decide,
    (overdue_listing_correct sOverdue3 100).2.2.1 (overdueEntry 1 10, 1) (by decide)⟩

/-- Forget a book's `availableQuantity` (for stating that two states agree
on everything except that cached field). -/
def Book.eraseAvail (bk : Book) : Book :=
  { bk with availableQuantity := 0 }

/-- Observational agreement of two states up to the books' cached
`availableQuantity` fields. -/
def LibraryState.obsEq (s t : LibraryState) : Prop :=
  s.books.map Book.eraseAvail = t.books.map Book.eraseAvail ∧
  s.borrowers = t.borrowers ∧ s.borrowings = t.borrowings ∧
  s.nextBorrowingId = t.nextBorrowingId

/-- A book with its total replaced (the write of `BookRepository.update`). -/
def Book.withTotal (bk : Book) (q : Int) : Book :=
  { bk with totalQuantity := q }

/-- A book with its availability recomputed from an active-borrowing count
(the write of `BookRepository.updateAvailability`). -/
def Book.recomputed (bk : Book) (cnt : Nat) : Book :=
  { bk with availableQuantity := max 0 (bk.totalQuantity - (cnt : Int)) }

lemma find?_map_ite {l : List Book} {bk : Book} {i : Nat} (g : Book → Book)
    (hg : ∀ x, (g x).id = x.id)
    (h : l.find? (fun x => x.id == i) = some bk) :
    (l.map (fun x => if x.id == i then g x else x)).find? (fun x => x.id == i) =
      some (g bk) := by
  induction l with
  | nil => cases h
  | cons a t ih =>
    by_cases ha : (a.id == i) = true
    · have hcons : List.find? (fun x => x.id == i) (a :: t) = some a :=
        List.find?_cons_of_pos _ ha
      rw [hcons] at h
      have hbk : a = bk := Option.some.inj h
      subst hbk
      have hga : ((g a).id == i) = true := by rw [hg a]; exact ha
      have hcons2 : List.find? (fun x => x.id == i)
          (g a :: List.map (fun x => if x.id == i then g x else x) t) =
            some (g a) :=
        List.find?_cons_of_pos _ hga
      rw [List.map_cons, if_pos ha, hcons2]
    · have hcons : List.find? (fun x => x.id == i) (a :: t) =
          List.find? (fun x => x.id == i) t :=
        List.find?_cons_of_neg _ ha
      rw [hcons] at h
      have hcons2 : List.find? (fun x => x.id == i)
          (a :: List.map (fun x => if x.id == i then g x else x) t) =
            List.find? (fun x => x.id == i)
              (List.map (fun x => if x.id == i then g x else x) t) :=
        List.find?_cons_of_neg _ ha
      rw [List.map_cons, if_neg ha, hcons2]
      exact ih h

lemma update_findBook (s : LibraryState) (i : Nat) (u : BookUpdateData)
    (bk : Book) (h : findBook s i = some bk) :
    findBook (BookRepository.update s i u).2 i =
      some (bk.withTotal (u.totalQuantity.getD bk.totalQuantity)) ∧
    (BookRepository.update s i u).2.borrowings = s.borrowings ∧
    (BookRepository.update s i u).2.borrowers = s.borrowers ∧
    (BookRepository.update s i u).2.nextBorrowingId = s.nextBorrowingId := by
  dsimp only [BookRepository.update]
  rw [h]
  refine ⟨?_, rfl, rfl, rfl⟩
  dsimp only [findBook]
  exact find?_map_ite _ (fun x => rfl) h

lemma updateAvailability_findBook (s : LibraryState) (i : Nat) (bk : Book)
    (h : findBook s i = some bk) :
    findBook (BookRepository.updateAvailability s i).2 i =
      some (bk.recomputed (activeByBook s i).length) ∧
    (BookRepository.updateAvailability s i).2.borrowings = s.borrowings ∧
    (BookRepository.updateAvailability s i).2.borrowers = s.borrowers ∧
    (BookRepository.updateAvailability s i).2.nextBorrowingId = s.nextBorrowingId := by
  dsimp only [BookRepository.updateAvailability]
  rw [h]
  refine ⟨?_, rfl, rfl, rfl⟩
  dsimp only [findBook]
  exact find?_map_ite _ (fun x => rfl) h

lemma activeByBook_congr {s t : LibraryState} (i : Nat)
    (h : s.borrowings = t.borrowings) : activeByBook s i = activeByBook t i := by
  dsimp only [activeByBook]
  rw [h]

/-- C8 (amended).  What the controller's pagination metadata actually
reports: `total` is the number of entries in the returned page (not the
count of all matching entries); `hasNext` is true exactly when the page
length equals the effective limit (`parseInt(limit) || 10`, so 10 when the
limit is absent or 0); `hasPrevious` is true exactly when the offset is
positive. -/
theorem overdue_meta_characterization (s : LibraryState) (asOf : Time)
    (lim off : Option Nat) :
    (BorrowingController.getOverdueBooks s asOf lim off).1 =
      BorrowingRepository.findOverdue s asOf lim off ∧
    (BorrowingController.getOverdueBooks s asOf lim off).2.total =
      (BorrowingRepository.findOverdue s asOf lim off).length ∧
    ((BorrowingController.getOverdueBooks s asOf lim off).2.hasNext = true ↔
      (BorrowingRepository.findOverdue s asOf lim off).length =
        (match lim with
          | some k => if k == 0 then 10 else k
          | none => 10)) ∧
    ((BorrowingController.getOverdueBooks s asOf lim off).2.hasPrevious = true ↔
      0 < off.getD 0) := by
  refine ⟨rfl, rfl, ?_, ?_⟩
  · dsimp only [BorrowingController.getOverdueBooks]
    exact beq_iff_eq
  · rcases off with _ | o <;>
      simp [BorrowingController.getOverdueBooks, Option.getD]

/-- C10.  The totalQuantity update of `BookService.updateBook`: when the
book exists, the update is rejected (with the state unchanged) whenever the
new total is ≤ 0 or strictly below the borrowed count
`totalQuantity − availableQuantity`; otherwise it succeeds, stores the new
total, leaves the ledger untouched and recomputes the availability from the
ledger (`max 0 (newTotal − activeCount)`), returning the re-read book. -/
theorem updateBook_quantity_rules (s : LibraryState) (id : Nat) (q : Int)
    (bk : Book) (hfind : findBook s id = some bk) :
    ((q ≤ 0 ∨ q < bk.totalQuantity - bk.availableQuantity) →
      ∃ msg, BookService.updateBook s id q = (Except.error msg, s)) ∧
    (0 < q → bk.totalQuantity - bk.availableQuantity ≤ q →
      (BookService.updateBook s id q).1 =
        Except.ok (findBook (BookService.updateBook s id q).2 id) ∧
      (BookService.updateBook s id q).2.borrowings = s.borrowings ∧
      findBook (BookService.updateBook s id q).2 id =
        some ((bk.withTotal q).recomputed (activeByBook s id).length)) := by
  constructor
  · intro hbad
    by_cases hq : q ≤ 0
    · exact ⟨msgTotalQuantityPositive, by
        simp [BookService.updateBook, hfind, if_pos hq]⟩
    · have hlt : q < bk.totalQuantity - bk.availableQuantity :=
        hbad.resolve_left hq
      exact ⟨msgCannotReduceBelowBorrowed, by
        simp [BookService.updateBook, hfind, hq, hlt]⟩
  · intro hq hge
    have hq0 : ¬ q ≤ 0 := not_le.mpr hq
    have hlt0 : ¬ q < bk.totalQuantity - bk.availableQuantity := not_lt.mpr hge
    obtain ⟨h1, hbor1, _, _⟩ :=
      update_findBook s id { totalQuantity := some q } bk hfind
    have h1' : findBook (BookRepository.update s id
        { totalQuantity := some q }).2 id = some (bk.withTotal q) := h1
    obtain ⟨h2, hbor2, _, _⟩ :=
      updateAvailability_findBook _ id (bk.withTotal q) h1'
    have hact : activeByBook (BookRepository.update s id
        { totalQuantity := some q }).2 id = activeByBook s id :=
      activeByBook_congr id hbor1
    have hserv : BookService.updateBook s id q =
        (Except.ok (findBook (BookRepository.updateAvailability
            (BookRepository.update s id { totalQuantity := some q }).2 id).2 id),
          (BookRepository.updateAvailability
            (BookRepository.update s id { totalQuantity := some q }).2 id).2) := by
      simp [BookService.updateBook, hfind, hq0, hlt0]
    rw [hserv]
    refine ⟨rfl, by rw [hbor2, hbor1], ?_⟩
    rw [h2, hact]

/-- C10 witness: on `sOverdue2` (two active borrowings of book 1, total 2)
raising the total to 5 succeeds and recomputes availability to 3, while the
theorem's rejection clause applies to a reduction to 1 (< 2 borrowed). -/
theorem updateBook_quantity_rules_witness :
    (findBook sOverdue2 1 = some { id := 1, totalQuantity := 2, availableQuantity := 0 }) ∧
    ((0 : Int) < 5) ∧
    ((BookService.updateBook sOverdue2 1 5).1 =
        Except.ok (findBook (BookService.updateBook sOverdue2 1 5).2 1) ∧
      (BookService.updateBook sOverdue2 1 5).2.borrowings = sOverdue2.borrowings ∧
      findBook (BookService.updateBook sOverdue2 1 5).2 1 =
        some ((Book.withTotal { id := 1, totalQuantity := 2, availableQuantity := 0 } 5).recomputed
          (activeByBook sOverdue2 1).length)) :=
  ⟨by decide, by decide,
    (updateBook_quantity_rules sOverdue2 1 5
      { id := 1, totalQuantity := 2, availableQuantity := 0 }
      (by decide)).2 (by decide) (by decide)⟩

lemma toCSV_header_prefix (rows : List Row) (cols : List String)
    (hne : cols.isEmpty = false)
    (hh : (joinSep "," (cols.map (fun c => escapeCell (some c)))).isEmpty = false) :
    ∃ r, toCSV rows cols =
      joinSep "," (cols.map (fun c => escapeCell (some c))) ++ r := by
  dsimp only [toCSV]
  rw [if_neg (by simp [hne])]
  by_cases hb : (joinSep "\n" (rows.map (fun row =>
      joinSep "," (cols.map (fun c => escapeCell (rowGet row c)))))).isEmpty = true
  · refine ⟨"\n", ?_⟩
    simp [List.filter, hh, hb, joinSep]
  · refine ⟨"\n" ++ (joinSep "\n" (rows.map (fun row =>
      joinSep "," (cols.map (fun c => escapeCell (rowGet row c)))))) ++ "\n", ?_⟩
    simp only [List.filter, hh, Bool.not_false, eq_self_iff_true]
    rw [show (joinSep "\n" (rows.map (fun row =>
      joinSep "," (cols.map (fun c => escapeCell (rowGet row c)))))).isEmpty
        = false from by simpa using hb]
    simp [joinSep, String.append_assoc]

/-- C9 (amended).  Both exports emit their fixed header first: the plain
export's columns end `checkoutDate,dueDate,returnDate`, the overdue
export's end `checkoutDate,dueDate,daysOverdue` (no `returnDate` column);
every cell containing a comma, double quote or newline is wrapped in double
quotes with internal quotes doubled, and a `null`/absent cell renders as
the empty string. -/
theorem csv_export_format (rows : List Row) (s : String) :
    (∃ r, BorrowingController.exportBorrowingsLastMonthCSV rows =
      "id,borrowerId,borrowerName,borrowerEmail,bookId,bookTitle,bookAuthor,isbn,checkoutDate,dueDate,returnDate" ++ r) ∧
    (∃ r, BorrowingController.exportOverdueLastMonthCSV rows =
      "id,borrowerId,borrowerName,borrowerEmail,bookId,bookTitle,bookAuthor,isbn,checkoutDate,dueDate,daysOverdue" ++ r) ∧
    (s.data.any (fun c => c = ',' || c = '"' || c = '\n') = true →
      escapeCell (some s) = "\"" ++ doubleQuotes s ++ "\"") ∧
    escapeCell none = "" := by
  refine ⟨?_, ?_, ?_, rfl⟩
  · obtain ⟨r, hr⟩ := toCSV_header_prefix rows
      BorrowingController.plainExportColumns (by decide) (by decide)
    refine ⟨r, ?_⟩
    rw [BorrowingController.exportBorrowingsLastMonthCSV, hr]
    congr 1
  · obtain ⟨r, hr⟩ := toCSV_header_prefix rows
      BorrowingController.overdueExportColumns (by decide) (by decide)
    refine ⟨r, ?_⟩
    rw [BorrowingController.exportOverdueLastMonthCSV, hr]
    congr 1
  · intro hs
    have hq : needsQuoting s = true := by
      obtain ⟨c, hc, hcp⟩ := List.any_eq_true.mp hs
      refine List.any_eq_true.mpr ⟨c, hc, ?_⟩
      simp only [Bool.or_eq_true, decide_eq_true_eq] at hcp ⊢
      tauto
    simp [escapeCell, hq]

/-- C9 witness: a cell value containing a comma is quoted by the export
serializer exactly as the theorem states. -/
theorem csv_export_format_witness :
    ("a,b".data.any (fun c => c = ',' || c = '"' || c = '\n') = true) ∧
    escapeCell (some "a,b") = "\"" ++ doubleQuotes "a,b" ++ "\"" :=
  ⟨by decide, (csv_export_format [] "a,b").2.2.1 (by decide)⟩

lemma obsEq_refl (s : LibraryState) : s.obsEq s := ⟨rfl, rfl, rfl, rfl⟩

/-- An update payload carrying only an `availableQuantity` patch leaves the
state untouched: `BookRepository.update` does not copy that field, and the
no-op totalQuantity write preserves every book. -/
lemma updateA_availPatch_noop (s : LibraryState) (i : Nat) (a : Option Int) :
    (BookRepository.update s i { availableQuantity := a }).2 = s := by
  dsimp only [BookRepository.update]
  split
  · rfl
  · simp

lemma updateAvailability_books_eraseAvail (s : LibraryState) (i : Nat) :
    ((BookRepository.updateAvailability s i).2.books).map Book.eraseAvail =
      s.books.map Book.eraseAvail := by
  dsimp only [BookRepository.updateAvailability]
  split
  · rfl
  · dsimp only
    rw [List.map_map]
    refine List.map_congr_left ?_
    intro x _
    by_cases h : (x.id == i) = true <;> simp [Book.eraseAvail, Function.comp, h]

lemma updateAvailability_frame (s : LibraryState) (i : Nat) :
    (BookRepository.updateAvailability s i).2.borrowers = s.borrowers ∧
    (BookRepository.updateAvailability s i).2.borrowings = s.borrowings ∧
    (BookRepository.updateAvailability s i).2.nextBorrowingId = s.nextBorrowingId := by
  dsimp only [BookRepository.updateAvailability]
  split
  · exact ⟨rfl, rfl, rfl⟩
  · exact ⟨rfl, rfl, rfl⟩

/-- C7 (amended).  From any state whose cached quantities satisfy
`availableQuantity = totalQuantity − activeCount`, the two service variants
return the same result (the same success value or the same error) for every
`checkoutBook` and `returnBook` call, and their final states agree on the
borrowers, the whole borrowing ledger, the id counter and every book field
except the cached `availableQuantity` — which the variants do store
differently, because the incremental variant's availability write is
dropped by `BookRepository.update`. -/
theorem checkout_return_variants_agree (s : LibraryState) (now retDate : Time)
    (br bk i : Nat)
    (hinv : ∀ b ∈ s.books, b.availableQuantity =
      b.totalQuantity - ((activeByBook s b.id).length : Int)) :
    ((BorrowingService.checkoutBook s now br bk).1 =
        (BorrowingServiceLedger.checkoutBook s now br bk).1 ∧
      LibraryState.obsEq (BorrowingService.checkoutBook s now br bk).2
        (BorrowingServiceLedger.checkoutBook s now br bk).2) ∧
    ((BorrowingService.returnBook s i retDate).1 =
        (BorrowingServiceLedger.returnBook s i retDate).1 ∧
      LibraryState.obsEq (BorrowingService.returnBook s i retDate).2
        (BorrowingServiceLedger.returnBook s i retDate).2) := by
  constructor
  · by_cases hz : (br == 0 || bk == 0) = true
    · have hA : BorrowingService.checkoutBook s now br bk =
          (Except.error msgIdsRequired, s) := by
        simp [BorrowingService.checkoutBook, hz]
      have hB : BorrowingServiceLedger.checkoutBook s now br bk =
          (Except.error msgIdsRequired, s) := by
        simp [BorrowingServiceLedger.checkoutBook, hz]
      rw [hA, hB]
      exact ⟨rfl, obsEq_refl s⟩
    · rcases hbrf : findBorrower s br with _ | w
      · have hA : BorrowingService.checkoutBook s now br bk =
            (Except.error msgBorrowerNotFound, s) := by
          simp [BorrowingService.checkoutBook, hz, hbrf]
        have hB : BorrowingServiceLedger.checkoutBook s now br bk =
            (Except.error msgBorrowerNotFound, s) := by
          simp [BorrowingServiceLedger.checkoutBook, hz, hbrf]
        rw [hA, hB]
        exact ⟨rfl, obsEq_refl s⟩
      · rcases hbkf : findBook s bk with _ | book
        · have hA : BorrowingService.checkoutBook s now br bk =
              (Except.error msgBookNotFound, s) := by
            simp [BorrowingService.checkoutBook, hz, hbrf, hbkf]
          have hB : BorrowingServiceLedger.checkoutBook s now br bk =
              (Except.error msgBookNotFound, s) := by
            simp [BorrowingServiceLedger.checkoutBook, hz, hbrf, hbkf]
          rw [hA, hB]
          exact ⟨rfl, obsEq_refl s⟩
        · have hmem : book ∈ s.books := List.mem_of_find?_eq_some hbkf
          have hbid : book.id = bk := by simpa using List.find?_some hbkf
          have heq : book.availableQuantity =
              book.totalQuantity - ((activeByBook s bk).length : Int) := by
            have h := hinv book hmem
            rw [hbid] at h
            exact h
          by_cases hc : book.availableQuantity ≤ 0
          · have hc' : book.totalQuantity - ((activeByBook s bk).length : Int) ≤ 0 := by
              rw [← heq]
              exact hc
            have hA : BorrowingService.checkoutBook s now br bk =
                (Except.error msgBookNotAvailable, s) := by
              simp [BorrowingService.checkoutBook, hz, hbrf, hbkf, hc]
            have hB : BorrowingServiceLedger.checkoutBook s now br bk =
                (Except.error msgBookNotAvailable, s) := by
              simp [BorrowingServiceLedger.checkoutBook, hz, hbrf, hbkf, hc']
            rw [hA, hB]
            exact ⟨rfl, obsEq_refl s⟩
          · have hc' : ¬ book.totalQuantity - ((activeByBook s bk).length : Int) ≤ 0 := by
              rw [← heq]
              exact hc
            have hA : BorrowingService.checkoutBook s now br bk =
                (Except.ok (BorrowingRepository.create s now br bk).1,
                  (BookRepository.update (BorrowingRepository.create s now br bk).2 bk
                    { availableQuantity := some (book.availableQuantity - 1) }).2) := by
              simp [BorrowingService.checkoutBook, hz, hbrf, hbkf, hc]
            have hB : BorrowingServiceLedger.checkoutBook s now br bk =
                (Except.ok (BorrowingRepository.create s now br bk).1,
                  (BookRepository.updateAvailability
                    (BorrowingRepository.create s now br bk).2 bk).2) := by
              simp [BorrowingServiceLedger.checkoutBook, hz, hbrf, hbkf, hc']
            rw [hA, hB]
            refine ⟨rfl, ?_, ?_, ?_, ?_⟩
            · rw [updateA_availPatch_noop]
              exact (updateAvailability_books_eraseAvail _ bk).symm
            · rw [updateA_availPatch_noop]
              exact (updateAvailability_frame _ bk).1.symm
            · rw [updateA_availPatch_noop]
              exact (updateAvailability_frame _ bk).2.1.symm
            · rw [updateA_availPatch_noop]
              exact (updateAvailability_frame _ bk).2.2.symm
  · by_cases hz : (i == 0) = true
    · have hA : BorrowingService.returnBook s i retDate =
          (Except.error msgBorrowingIdRequired, s) := by
        simp [BorrowingService.returnBook, hz]
      have hB : BorrowingServiceLedger.returnBook s i retDate =
          (Except.error msgBorrowingIdRequired, s) := by
        simp [BorrowingServiceLedger.returnBook, hz]
      rw [hA, hB]
      exact ⟨rfl, obsEq_refl s⟩
    · rcases hbf : findBorrowing s i with _ | borrowing
      · have hA : BorrowingService.returnBook s i retDate =
            (Except.error msgBorrowingNotFound, s) := by
          simp [BorrowingService.returnBook, hz, hbf]
        have hB : BorrowingServiceLedger.returnBook s i retDate =
            (Except.error msgBorrowingNotFound, s) := by
          simp [BorrowingServiceLedger.returnBook, hz, hbf]
        rw [hA, hB]
        exact ⟨rfl, obsEq_refl s⟩
      · by_cases hr : borrowing.returnDate.isSome = true
        · have hA : BorrowingService.returnBook s i retDate =
              (Except.error msgAlreadyReturned, s) := by
            simp [BorrowingService.returnBook, hz, hbf, hr]
          have hB : BorrowingServiceLedger.returnBook s i retDate =
              (Except.error msgAlreadyReturned, s) := by
            simp [BorrowingServiceLedger.returnBook, hz, hbf, hr]
          rw [hA, hB]
          exact ⟨rfl, obsEq_refl s⟩
        · have hA : BorrowingService.returnBook s i retDate =
              (Except.ok (BorrowingRepository.update s i
                  { returnDate := some retDate }).1,
                (BorrowingRepository.update s i { returnDate := some retDate }).2) := by
            rcases hfb : findBook (BorrowingRepository.update s i
                { returnDate := some retDate }).2 borrowing.bookId with _ | book
            · simp [BorrowingService.returnBook, hz, hbf, hr, hfb]
            · simp [BorrowingService.returnBook, hz, hbf, hr, hfb,
                updateA_availPatch_noop]
          have hB : BorrowingServiceLedger.returnBook s i retDate =
              (Except.ok (BorrowingRepository.update s i
                  { returnDate := some retDate }).1,
                (BookRepository.updateAvailability
                  (BorrowingRepository.update s i { returnDate := some retDate }).2
                  borrowing.bookId).2) := by
            simp [BorrowingServiceLedger.returnBook, hz, hbf, hr]
          rw [hA, hB]
          refine ⟨rfl, ?_, ?_, ?_, ?_⟩
          · exact (updateAvailability_books_eraseAvail _ borrowing.bookId).symm
          · exact (updateAvailability_frame _ borrowing.bookId).1.symm
          · exact (updateAvailability_frame _ borrowing.bookId).2.1.symm
          · exact (updateAvailability_frame _ borrowing.bookId).2.2.symm

/-- C7 witness: the amended equivalence applied to the invariant-satisfying
state `s0` — same results, states agreeing outside availableQuantity. -/
theorem checkout_return_variants_agree_witness :
    (∀ b ∈ s0.books, b.availableQuantity =
      b.totalQuantity - ((activeByBook s0 b.id).length : Int)) ∧
    ((BorrowingService.checkoutBook s0 0 1 1).1 =
        (BorrowingServiceLedger.checkoutBook s0 0 1 1).1 ∧
      LibraryState.obsEq (BorrowingService.checkoutBook s0 0 1 1).2
        (BorrowingServiceLedger.checkoutBook s0 0 1 1).2) :=
  ⟨by decide, (checkout_return_variants_agree s0 0 0 1 1 1 (by decide)).1⟩

/-- A book with its cached availability replaced (the write of
`BookRepository.updateAvailability`). -/
def Book.setAvail (x : Book) (v : Int) : Book :=
  { x with availableQuantity := v }

/-- Well-formed store: distinct book ids, distinct borrowing ids, and every
borrowing id below the auto-increment counter — what the database's primary
keys and sequence guarantee. -/
def wfState (s : LibraryState) : Prop :=
  (s.books.map Book.id).Nodup ∧
  (s.borrowings.map Borrowing.id).Nodup ∧
  ∀ b ∈ s.borrowings, b.id < s.nextBorrowingId

/-- The operations that recompute availability from the ledger (the
ledger-recompute service variant plus the quantity update), as opposed to
the incremental variant's dropped patches. -/
def Op.recomputes : Op → Prop
  | .checkout _ _ _ => False
  | .ret _ _ => False
  | .checkoutLedger _ _ _ => True
  | .retLedger _ _ => True
  | .extend _ _ => True
  | .updateTotal _ _ => True

lemma eq_of_mem_of_findBook {l : List Book} {x f : Book} {i : Nat}
    (huniq : (l.map Book.id).Nodup) (hx : x ∈ l) (hid : x.id = i)
    (hf : l.find? (fun b => b.id == i) = some f) : x = f := by
  have hfmem := List.mem_of_find?_eq_some hf
  have hfid : f.id = i := by simpa using List.find?_some hf
  exact List.inj_on_of_nodup_map huniq hx hfmem (hid.trans hfid.symm)

lemma updateAvailability_books (s : LibraryState) (i : Nat) (book : Book)
    (h : findBook s i = some book) :
    (BookRepository.updateAvailability s i).2.books =
      s.books.map (fun x => if x.id == i then
        x.setAvail (max 0 (book.totalQuantity - ((activeByBook s i).length : Int)))
        else x) ∧
    (BookRepository.updateAvailability s i).2.borrowings = s.borrowings := by
  dsimp only [BookRepository.updateAvailability]
  rw [h]
  exact ⟨rfl, rfl⟩

lemma update_books (s : LibraryState) (i : Nat) (q : Int) (book : Book)
    (h : findBook s i = some book) :
    (BookRepository.update s i { totalQuantity := some q }).2.books =
      s.books.map (fun x => if x.id == i then x.withTotal q else x) ∧
    (BookRepository.update s i { totalQuantity := some q }).2.borrowings =
      s.borrowings := by
  dsimp only [BookRepository.update]
  rw [h]
  exact ⟨rfl, rfl⟩

lemma activeByBook_create (s : LibraryState) (now : Time) (br bk j : Nat) :
    activeByBook (BorrowingRepository.create s now br bk).2 j =
      if bk == j then
        activeByBook s j ++ [(BorrowingRepository.create s now br bk).1]
      else activeByBook s j := by
  dsimp only [BorrowingRepository.create, activeByBook]
  rw [List.filter_append]
  by_cases h : (bk == j) = true <;> simp [h]

lemma filter_length_map_setReturnDate (d : Time) (i j : Nat)
    (l : List Borrowing) (f : Borrowing)
    (huniq : (l.map Borrowing.id).Nodup) (hfmem : f ∈ l) (hfid : f.id = i)
    (hret : f.returnDate = none) :
    (l.filter (fun b => b.bookId == j && b.returnDate.isNone)).length =
      ((l.map (setReturnDate i d)).filter
        (fun b => b.bookId == j && b.returnDate.isNone)).length +
      (if f.bookId = j then 1 else 0) := by
  subst hfid
  induction l with
  | nil => cases hfmem
  | cons a t ih =>
    have hanot : a.id ∉ t.map Borrowing.id := (List.nodup_cons.mp huniq).1
    have huniq2 : (t.map Borrowing.id).Nodup := (List.nodup_cons.mp huniq).2
    rcases List.mem_cons.mp hfmem with rfl | hft
    · have htmap : t.map (setReturnDate f.id d) = t := by
        have hpt : ∀ x ∈ t, setReturnDate f.id d x = x := by
          intro x hx
          have hxidb : (x.id == f.id) = false := by
            simp only [beq_eq_false_iff_ne, ne_eq]
            intro hcon
            exact hanot (hcon ▸ List.mem_map_of_mem Borrowing.id hx)
          simp [setReturnDate, hxidb]
        calc t.map (setReturnDate f.id d) = t.map id :=
              List.map_congr_left (fun x hx => hpt x hx)
          _ = t := List.map_id t
      rw [List.map_cons, htmap]
      have hsetf : setReturnDate f.id d f = { f with returnDate := some d } := by
        simp [setReturnDate]
      have h2 : ((setReturnDate f.id d f).bookId == j &&
          (setReturnDate f.id d f).returnDate.isNone) = false := by
        rw [hsetf]
        simp
      by_cases hbj : (f.bookId == j) = true
      · have hbjeq : f.bookId = j := by simpa using hbj
        have h1 : (f.bookId == j && f.returnDate.isNone) = true := by
          simp [hbj, hret]
        rw [List.filter_cons, List.filter_cons, h1, h2]
        simp [hbjeq]
      · have hbjf : (f.bookId == j) = false := by simpa using hbj
        have h1 : (f.bookId == j && f.returnDate.isNone) = false := by
          simp [hbjf]
        rw [List.filter_cons, List.filter_cons, h1, h2]
        simp [show ¬ f.bookId = j from by simpa using hbj]
    · have haidb : (a.id == f.id) = false := by
        simp only [beq_eq_false_iff_ne, ne_eq]
        intro hcon
        exact hanot (hcon ▸ List.mem_map_of_mem Borrowing.id hft)
      have hseta : setReturnDate f.id d a = a := by
        simp [setReturnDate, haidb]
      rw [List.map_cons, hseta, List.filter_cons, List.filter_cons]
      by_cases hpa : (a.bookId == j && a.returnDate.isNone) = true
      · rw [if_pos hpa, if_pos hpa]
        simp only [List.length_cons]
        rw [ih huniq2 hft]
        omega
      · rw [if_neg hpa, if_neg hpa]
        exact ih huniq2 hft

lemma extend_state (s : LibraryState) (i : Nat) (days : Int) :
    (BorrowingService.extendDueDate s i days).2 = s := by
  dsimp only [BorrowingService.extendDueDate, BorrowingRepository.update]
  split
  · rfl
  · split
    · rfl
    · split
      · rfl
      · simp

lemma borrowingUpdate_state (s : LibraryState) (i : Nat) (d : Time)
    (f : Borrowing) (hf : findBorrowing s i = some f) :
    (BorrowingRepository.update s i { returnDate := some d }).2.borrowings =
      s.borrowings.map (setReturnDate i d) ∧
    (BorrowingRepository.update s i { returnDate := some d }).2.books = s.books ∧
    (BorrowingRepository.update s i { returnDate := some d }).2.nextBorrowingId =
      s.nextBorrowingId := by
  dsimp only [BorrowingRepository.update]
  rw [hf]
  exact ⟨rfl, rfl, rfl⟩

lemma map_book_id_ite (l : List Book) (i : Nat) (g : Book → Book)
    (hg : ∀ x, (g x).id = x.id) :
    (l.map (fun x => if x.id == i then g x else x)).map Book.id =
      l.map Book.id := by
  rw [List.map_map]
  refine List.map_congr_left ?_
  intro x _
  by_cases h : (x.id == i) = true <;> simp [Function.comp, h, hg]

lemma map_borrowing_id_setReturnDate (l : List Borrowing) (i : Nat) (d : Time) :
    (l.map (setReturnDate i d)).map Borrowing.id = l.map Borrowing.id := by
  rw [List.map_map]
  refine List.map_congr_left ?_
  intro x _
  dsimp only [Function.comp, setReturnDate]
  split <;> rfl

lemma nodup_map_book_id_ite {l : List Book} {i : Nat} {g : Book → Book}
    (hg : ∀ x, (g x).id = x.id) (h : (l.map Book.id).Nodup) :
    ((l.map (fun x => if x.id == i then g x else x)).map Book.id).Nodup := by
  rw [map_book_id_ite l i g hg]
  exact h

lemma invariant_after_recompute (sOld t : LibraryState) (i : Nat)
    (book : Book) (g : Book → Book)
    (hbooksN : (sOld.books.map Book.id).Nodup)
    (hfind : findBook sOld i = some book)
    (hbooks : t.books = sOld.books.map (fun x => if x.id == i then g x else x))
    (hgid : (g book).id = book.id)
    (hgval : (g book).availableQuantity =
      (g book).totalQuantity - ((activeByBook t i).length : Int))
    (hgnn : 0 ≤ (g book).availableQuantity)
    (hgle : (g book).availableQuantity ≤ (g book).totalQuantity)
    (hcnt_other : ∀ j, ¬ j = i →
      (activeByBook t j).length = (activeByBook sOld j).length)
    (hinv : availabilityInvariant sOld) :
    availabilityInvariant t := by
  intro x' hx'
  rw [hbooks] at hx'
  obtain ⟨x, hx, hfx⟩ := List.mem_map.mp hx'
  by_cases hxi : (x.id == i) = true
  · have hxbook : x = book :=
      eq_of_mem_of_findBook hbooksN hx (by simpa using hxi) hfind
    subst hxbook
    rw [if_pos hxi] at hfx
    subst hfx
    have hgi : (g x).id = i := by
      rw [hgid]
      simpa using hxi
    refine ⟨?_, hgnn, hgle⟩
    rw [hgi]
    exact hgval
  · rw [if_neg hxi] at hfx
    subst hfx
    have hxid : ¬ x.id = i := by simpa using hxi
    obtain ⟨h1, h2, h3⟩ := hinv x hx
    refine ⟨?_, h2, h3⟩
    rw [hcnt_other x.id hxid]
    exact h1

lemma checkoutLedger_preserves (s : LibraryState) (now : Time) (br bk : Nat)
    (hwf : wfState s) (hinv : availabilityInvariant s) :
    wfState ((Op.checkoutLedger now br bk).apply s) ∧
    availabilityInvariant ((Op.checkoutLedger now br bk).apply s) := by
  obtain ⟨hbooksN, hborN, hlt⟩ := hwf
  by_cases hz : (br == 0 || bk == 0) = true
  · have hs : (Op.checkoutLedger now br bk).apply s = s := by
      simp [Op.apply, BorrowingServiceLedger.checkoutBook, hz]
    rw [hs]
    exact ⟨⟨hbooksN, hborN, hlt⟩, hinv⟩
  · rcases hbrf : findBorrower s br with _ | w
    · have hs : (Op.checkoutLedger now br bk).apply s = s := by
        simp [Op.apply, BorrowingServiceLedger.checkoutBook, hz, hbrf]
      rw [hs]
      exact ⟨⟨hbooksN, hborN, hlt⟩, hinv⟩
    · rcases hbkf : findBook s bk with _ | book
      · have hs : (Op.checkoutLedger now br bk).apply s = s := by
          simp [Op.apply, BorrowingServiceLedger.checkoutBook, hz, hbrf, hbkf]
        rw [hs]
        exact ⟨⟨hbooksN, hborN, hlt⟩, hinv⟩
      · by_cases hc : book.totalQuantity - ((activeByBook s bk).length : Int) ≤ 0
        · have hs : (Op.checkoutLedger now br bk).apply s = s := by
            simp [Op.apply, BorrowingServiceLedger.checkoutBook, hz, hbrf, hbkf, hc]
          rw [hs]
          exact ⟨⟨hbooksN, hborN, hlt⟩, hinv⟩
        · have hs : (Op.checkoutLedger now br bk).apply s =
              (BookRepository.updateAvailability
                (BorrowingRepository.create s now br bk).2 bk).2 := by
            simp [Op.apply, BorrowingServiceLedger.checkoutBook, hz, hbrf, hbkf, hc]
          rw [hs]
          have hbkf1 : findBook (BorrowingRepository.create s now br bk).2 bk =
              some book := hbkf
          obtain ⟨htbooks, htbor⟩ := updateAvailability_books _ bk book hbkf1
          have htborrow : (BookRepository.updateAvailability
              (BorrowingRepository.create s now br bk).2 bk).2.borrowings =
              s.borrowings ++ [(BorrowingRepository.create s now br bk).1] := htbor
          have hcnt1 : ((activeByBook (BorrowingRepository.create s now br bk).2
              bk).length : Int) = ((activeByBook s bk).length : Int) + 1 := by
            rw [activeByBook_create]
            simp
          have hcntT : ((activeByBook (BookRepository.updateAvailability
              (BorrowingRepository.create s now br bk).2 bk).2 bk).length : Int) =
              ((activeByBook s bk).length : Int) + 1 := by
            rw [activeByBook_congr bk htbor]
            exact hcnt1
          have hcnt_other : ∀ j, ¬ j = bk →
              (activeByBook (BookRepository.updateAvailability
                (BorrowingRepository.create s now br bk).2 bk).2 j).length =
              (activeByBook s j).length := by
            intro j hj
            rw [activeByBook_congr j htbor, activeByBook_create,
              if_neg (by simpa using fun h : bk = j => hj h.symm)]
          constructor
          · refine ⟨?_, ?_, ?_⟩
            · rw [htbooks]
              exact nodup_map_book_id_ite (fun x => rfl) hbooksN
            · rw [htborrow, List.map_append]
              refine List.Nodup.append hborN (by simp) ?_
              intro x hx hx2
              simp only [List.map_cons, List.map_nil, List.mem_singleton] at hx2
              subst hx2
              obtain ⟨b, hb, hbid⟩ := List.mem_map.mp hx
              exact absurd (hbid ▸ hlt b hb) (lt_irrefl _)
            · intro b hb
              rw [htborrow] at hb
              have hnext : (BookRepository.updateAvailability
                  (BorrowingRepository.create s now br bk).2 bk).2.nextBorrowingId =
                  s.nextBorrowingId + 1 := (updateAvailability_frame _ bk).2.2
              rw [hnext]
              rcases List.mem_append.mp hb with h | h
              · exact Nat.lt_succ_of_lt (hlt b h)
              · simp only [List.mem_singleton] at h
                subst h
                exact Nat.lt_succ_self _
          · refine invariant_after_recompute s _ bk book _ hbooksN hbkf htbooks
              rfl ?_ ?_ ?_ hcnt_other hinv
            · dsimp only [Book.setAvail]
              rw [hcntT, hcnt1]
              have hnn : (0 : Int) ≤ book.totalQuantity -
                  (((activeByBook s bk).length : Int) + 1) := by omega
              rw [max_eq_right hnn]
            · exact le_max_left _ _
            · dsimp only [Book.setAvail]
              rw [hcnt1]
              have hcnt0 : (0 : Int) ≤ ((activeByBook s bk).length : Int) :=
                Int.natCast_nonneg _
              refine max_le ?_ ?_ <;> omega

lemma setReturnDate_id (i : Nat) (d : Time) (x : Borrowing) :
    (setReturnDate i d x).id = x.id := by
  dsimp only [setReturnDate]
  split <;> rfl

lemma retLedger_preserves (s : LibraryState) (d : Time) (i : Nat)
    (hwf : wfState s) (hinv : availabilityInvariant s) :
    wfState ((Op.retLedger d i).apply s) ∧
    availabilityInvariant ((Op.retLedger d i).apply s) := by
  obtain ⟨hbooksN, hborN, hlt⟩ := hwf
  by_cases hz : (i == 0) = true
  · have hs : (Op.retLedger d i).apply s = s := by
      simp [Op.apply, BorrowingServiceLedger.returnBook, hz]
    rw [hs]
    exact ⟨⟨hbooksN, hborN, hlt⟩, hinv⟩
  · rcases hbf : findBorrowing s i with _ | f
    · have hs : (Op.retLedger d i).apply s = s := by
        simp [Op.apply, BorrowingServiceLedger.returnBook, hz, hbf]
      rw [hs]
      exact ⟨⟨hbooksN, hborN, hlt⟩, hinv⟩
    · by_cases hr : f.returnDate.isSome = true
      · have hs : (Op.retLedger d i).apply s = s := by
          simp [Op.apply, BorrowingServiceLedger.returnBook, hz, hbf, hr]
        rw [hs]
        exact ⟨⟨hbooksN, hborN, hlt⟩, hinv⟩
      · have hretn : f.returnDate = none := Option.not_isSome_iff_eq_none.mp hr
        have hs : (Op.retLedger d i).apply s =
            (BookRepository.updateAvailability
              (BorrowingRepository.update s i { returnDate := some d }).2
              f.bookId).2 := by
          simp [Op.apply, BorrowingServiceLedger.returnBook, hz, hbf, hr]
        rw [hs]
        obtain ⟨hs1bor, hs1books, hs1next⟩ := borrowingUpdate_state s i d f hbf
        have hfmem : f ∈ s.borrowings := List.mem_of_find?_eq_some hbf
        have hfid : f.id = i := by simpa using List.find?_some hbf
        have hcnts1 : ∀ j, (activeByBook s j).length =
            (activeByBook (BorrowingRepository.update s i
              { returnDate := some d }).2 j).length +
            (if f.bookId = j then 1 else 0) := by
          intro j
          have hrec := filter_length_map_setReturnDate d i j s.borrowings f
            hborN hfmem hfid hretn
          dsimp only [activeByBook]
          rw [hs1bor]
          exact hrec
        have hs1idmap : ((BorrowingRepository.update s i
            { returnDate := some d }).2.borrowings.map Borrowing.id) =
            s.borrowings.map Borrowing.id := by
          rw [hs1bor]
          exact map_borrowing_id_setReturnDate _ i d
        have hs1bound : ∀ b ∈ (BorrowingRepository.update s i
            { returnDate := some d }).2.borrowings,
            b.id < s.nextBorrowingId := by
          intro b hb
          rw [hs1bor] at hb
          obtain ⟨x, hx, hxb⟩ := List.mem_map.mp hb
          rw [← hxb, setReturnDate_id]
          exact hlt x hx
        rcases hfbj : findBook (BorrowingRepository.update s i
            { returnDate := some d }).2 f.bookId with _ | book
        · have hT : (BookRepository.updateAvailability
              (BorrowingRepository.update s i { returnDate := some d }).2
              f.bookId).2 =
              (BorrowingRepository.update s i { returnDate := some d }).2 := by
            dsimp only [BookRepository.updateAvailability]
            rw [hfbj]
          rw [hT]
          have hnone : ∀ x ∈ s.books, ¬ x.id = f.bookId := by
            intro x hx hcon
            have hx1 : x ∈ (BorrowingRepository.update s i
                { returnDate := some d }).2.books := by
              rw [hs1books]
              exact hx
            exact (List.find?_eq_none.mp hfbj x hx1) (by simpa using hcon)
          constructor
          · exact ⟨by rw [hs1books]; exact hbooksN,
              by rw [hs1idmap]; exact hborN,
              by rw [hs1next]; exact hs1bound⟩
          · intro x hx
            have hxS : x ∈ s.books := by
              rw [← hs1books]
              exact hx
            obtain ⟨h1, h2, h3⟩ := hinv x hxS
            refine ⟨?_, h2, h3⟩
            have hxj : ¬ f.bookId = x.id := fun hcon => hnone x hxS hcon.symm
            have hcnteq : (activeByBook (BorrowingRepository.update s i
                { returnDate := some d }).2 x.id).length =
                (activeByBook s x.id).length := by
              have h := hcnts1 x.id
              rw [if_neg hxj] at h
              omega
            rw [hcnteq]
            exact h1
        · obtain ⟨htbooks, htbor⟩ := updateAvailability_books _ f.bookId book hfbj
          have hbookmem : book ∈ s.books := by
            rw [← hs1books]
            exact List.mem_of_find?_eq_some hfbj
          have hbookid : book.id = f.bookId := by
            simpa using List.find?_some hfbj
          have hfindS : findBook s f.bookId = some book := by
            dsimp only [findBook]
            rw [← hs1books]
            exact hfbj
          have hcntT : ∀ j, (activeByBook (BookRepository.updateAvailability
              (BorrowingRepository.update s i { returnDate := some d }).2
              f.bookId).2 j).length =
              (activeByBook (BorrowingRepository.update s i
                { returnDate := some d }).2 j).length :=
            fun j => by rw [activeByBook_congr j htbor]
          have hdrop : (activeByBook s f.bookId).length =
              (activeByBook (BorrowingRepository.update s i
                { returnDate := some d }).2 f.bookId).length + 1 := by
            have := hcnts1 f.bookId
            rwa [if_pos rfl] at this
          obtain ⟨hinv1, hinv2, hinv3⟩ := hinv book hbookmem
          rw [hbookid] at hinv1
          constructor
          · refine ⟨?_, ?_, ?_⟩
            · rw [htbooks]
              refine nodup_map_book_id_ite (fun x => rfl) ?_
              rw [hs1books]
              exact hbooksN
            · rw [htbor, hs1idmap]
              exact hborN
            · intro b hb
              rw [htbor] at hb
              have hnext : (BookRepository.updateAvailability
                  (BorrowingRepository.update s i { returnDate := some d }).2
                  f.bookId).2.nextBorrowingId =
                  s.nextBorrowingId := by
                rw [(updateAvailability_frame _ f.bookId).2.2, hs1next]
              rw [hnext]
              exact hs1bound b hb
          · have hbooks2 : (BookRepository.updateAvailability
                (BorrowingRepository.update s i { returnDate := some d }).2
                f.bookId).2.books =
                s.books.map (fun x => if x.id == f.bookId then
                  x.setAvail (max 0 (book.totalQuantity -
                    ((activeByBook (BorrowingRepository.update s i
                      { returnDate := some d }).2 f.bookId).length : Int)))
                  else x) := by
              rw [htbooks, hs1books]
            refine invariant_after_recompute s _ f.bookId book _ hbooksN hfindS
              hbooks2 rfl ?_ ?_ ?_ ?_ hinv
            · dsimp only [Book.setAvail]
              rw [hcntT f.bookId]
              have hnn : (0 : Int) ≤ book.totalQuantity -
                  ((activeByBook (BorrowingRepository.update s i
                    { returnDate := some d }).2 f.bookId).length : Int) := by
                have hcast : ((activeByBook s f.bookId).length : Int) =
                    ((activeByBook (BorrowingRepository.update s i
                      { returnDate := some d }).2 f.bookId).length : Int) + 1 := by
                  rw [hdrop]
                  push_cast
                  ring
                omega
              rw [max_eq_right hnn]
            · exact le_max_left _ _
            · dsimp only [Book.setAvail]
              have hcast : ((activeByBook s f.bookId).length : Int) =
                  ((activeByBook (BorrowingRepository.update s i
                    { returnDate := some d }).2 f.bookId).length : Int) + 1 := by
                rw [hdrop]
                push_cast
                ring
              have hge0 : (0 : Int) ≤ ((activeByBook (BorrowingRepository.update s i
                  { returnDate := some d }).2 f.bookId).length : Int) :=
                Int.natCast_nonneg _
              refine max_le ?_ ?_ <;> omega
            · intro j hj
              rw [hcntT j]
              have := hcnts1 j
              rw [if_neg (fun hcon => hj hcon.symm)] at this
              omega

lemma updateTotal_preserves (s : LibraryState) (bkid : Nat) (q : Int)
    (hwf : wfState s) (hinv : availabilityInvariant s) :
    wfState ((Op.updateTotal bkid q).apply s) ∧
    availabilityInvariant ((Op.updateTotal bkid q).apply s) := by
  obtain ⟨hbooksN, hborN, hlt⟩ := hwf
  rcases hbkf : findBook s bkid with _ | book
  · have hs : (Op.updateTotal bkid q).apply s = s := by
      simp [Op.apply, BookService.updateBook, hbkf]
    rw [hs]
    exact ⟨⟨hbooksN, hborN, hlt⟩, hinv⟩
  · by_cases hq : q ≤ 0
    · have hs : (Op.updateTotal bkid q).apply s = s := by
        simp [Op.apply, BookService.updateBook, hbkf, hq]
      rw [hs]
      exact ⟨⟨hbooksN, hborN, hlt⟩, hinv⟩
    · by_cases hb : q < book.totalQuantity - book.availableQuantity
      · have hs : (Op.updateTotal bkid q).apply s = s := by
          simp [Op.apply, BookService.updateBook, hbkf, hq, hb]
        rw [hs]
        exact ⟨⟨hbooksN, hborN, hlt⟩, hinv⟩
      · have hs : (Op.updateTotal bkid q).apply s =
            (BookRepository.updateAvailability
              (BookRepository.update s bkid { totalQuantity := some q }).2
              bkid).2 := by
          simp [Op.apply, BookService.updateBook, hbkf, hq, hb]
        rw [hs]
        obtain ⟨hfind1, hs1bor, hs1brw, hs1next⟩ :=
          update_findBook s bkid { totalQuantity := some q } book hbkf
        obtain ⟨hs1books, hs1bor2⟩ := update_books s bkid q book hbkf
        have hfind1' : findBook (BookRepository.update s bkid
            { totalQuantity := some q }).2 bkid = some (book.withTotal q) := hfind1
        obtain ⟨htbooks, htbor⟩ :=
          updateAvailability_books _ bkid (book.withTotal q) hfind1'
        have hcnts1 : ∀ j, (activeByBook (BookRepository.update s bkid
            { totalQuantity := some q }).2 j).length =
            (activeByBook s j).length :=
          fun j => by rw [activeByBook_congr j hs1bor]
        have hcntT : ∀ j, (activeByBook (BookRepository.updateAvailability
            (BookRepository.update s bkid { totalQuantity := some q }).2
            bkid).2 j).length = (activeByBook s j).length :=
          fun j => by rw [activeByBook_congr j htbor, hcnts1 j]
        obtain ⟨hinv1, hinv2, hinv3⟩ := hinv book (List.mem_of_find?_eq_some hbkf)
        have hbookid : book.id = bkid := by simpa using List.find?_some hbkf
        rw [hbookid] at hinv1
        have hcomp : (BookRepository.updateAvailability
            (BookRepository.update s bkid { totalQuantity := some q }).2
            bkid).2.books =
            s.books.map (fun x => if x.id == bkid then
              (x.withTotal q).setAvail (max 0 ((book.withTotal q).totalQuantity -
                ((activeByBook (BookRepository.update s bkid
                  { totalQuantity := some q }).2 bkid).length : Int)))
              else x) := by
          rw [htbooks, hs1books, List.map_map]
          refine List.map_congr_left ?_
          intro x _
          by_cases h : (x.id == bkid) = true
          · simp [Function.comp, h, Book.withTotal]
          · simp [Function.comp, h]
        constructor
        · refine ⟨?_, ?_, ?_⟩
          · rw [hcomp]
            exact nodup_map_book_id_ite (fun x => rfl) hbooksN
          · rw [htbor, hs1bor]
            exact hborN
          · intro b hb
            rw [htbor, hs1bor] at hb
            have hnext : (BookRepository.updateAvailability
                (BookRepository.update s bkid { totalQuantity := some q }).2
                bkid).2.nextBorrowingId = s.nextBorrowingId := by
              rw [(updateAvailability_frame _ bkid).2.2, hs1next]
            rw [hnext]
            exact hlt b hb
        · refine invariant_after_recompute s _ bkid book _ hbooksN hbkf
            hcomp rfl ?_ ?_ ?_ ?_ hinv
          · dsimp only [Book.setAvail, Book.withTotal]
            rw [hcntT bkid, hcnts1 bkid]
            have hnn : (0 : Int) ≤ q - ((activeByBook s bkid).length : Int) := by
              omega
            rw [max_eq_right hnn]
          · exact le_max_left _ _
          · dsimp only [Book.setAvail, Book.withTotal]
            rw [hcnts1 bkid]
            have hge0 : (0 : Int) ≤ ((activeByBook s bkid).length : Int) :=
              Int.natCast_nonneg _
            refine max_le ?_ ?_ <;> omega
          · intro j hj
            exact hcntT j

/-- The ledger-recompute operations — the part_012 service variant's
checkout and return, the due-date extension and the totalQuantity update —
all preserve well-formedness and the spec's availability invariant.
Together with the closed counterexamples below, this isolates the
invariant violation to the incremental variant's dropped availability
write. -/
theorem ledger_ops_preserve_invariant (op : Op) (s : LibraryState)
    (hop : op.recomputes) (hwf : wfState s) (hinv : availabilityInvariant s) :
    wfState (op.apply s) ∧ availabilityInvariant (op.apply s) := by
  cases op with
  | checkout now br bk => cases hop
  | ret d i => cases hop
  | checkoutLedger now br bk => exact checkoutLedger_preserves s now br bk hwf hinv
  | retLedger d i => exact retLedger_preserves s d i hwf hinv
  | extend i days =>
    rw [Op.apply, extend_state]
    exact ⟨hwf, hinv⟩
  | updateTotal bkid q => exact updateTotal_preserves s bkid q hwf hinv

/-- Closure under arbitrary sequences of ledger-recompute operations. -/
theorem ledger_sequence_preserves_invariant (ops : List Op) (s : LibraryState)
    (hops : ∀ op ∈ ops, op.recomputes) (hwf : wfState s)
    (hinv : availabilityInvariant s) :
    availabilityInvariant (ops.foldl (fun t op => op.apply t) s) := by
  induction ops generalizing s with
  | nil => exact hinv
  | cons op rest ih =>
    have h1 := ledger_ops_preserve_invariant op s (hops op (by simp)) hwf hinv
    exact ih _ (fun o ho => hops o (by simp [ho])) h1.1 h1.2

/-- C1.  The availability invariant holds on the fresh state `s0` but is
broken by a single `BorrowingService.checkoutBook` call of the
cached-quantity service variant: the ledger entry is created, yet the
`availableQuantity` patch passed to `BookRepository.update` is dropped
(that method copies only title/author/isbn/totalQuantity/shelfLocation),
so the stored quantity stays 1 while one active borrowing exists. -/
theorem checkout_breaks_availability_invariant :
    availabilityInvariant s0 ∧
    ¬ availabilityInvariant ((Op.checkout 0 1 1).apply s0) ∧
    findBook ((Op.checkout 0 1 1).apply s0) 1 =
      some { id := 1, totalQuantity := 1, availableQuantity := 1 } ∧
    (activeByBook ((Op.checkout 0 1 1).apply s0) 1).length = 1 := by
  decide

/-- C2.  Under the cached-quantity service variant, checking out the last
copy of book 1 succeeds, and the **next** checkout of the same book also
succeeds (the cached quantity was never decremented), leaving two active
borrowings of a one-copy book; the ledger-recompute variant rejects the
second checkout with `BookNotAvailable`. -/
theorem second_checkout_of_last_copy_succeeds :
    isOkResult (BorrowingService.checkoutBook s0 0 1 1).1 = true ∧
    isOkResult
      (BorrowingService.checkoutBook ((Op.checkout 0 1 1).apply s0) 0 1 1).1 = true ∧
    (activeByBook ((Op.checkout 0 1 1).apply ((Op.checkout 0 1 1).apply s0)) 1).length = 2 ∧
    (BorrowingServiceLedger.checkoutBook ((Op.checkoutLedger 0 1 1).apply s0) 0 1 1).1 =
      Except.error msgBookNotAvailable := by
  decide

/-- C7 counterexample.  From the invariant-satisfying state `s0`, the two
service variants return the same checkout result but reach different final
states: the cached-quantity variant leaves `availableQuantity = 1`, the
ledger-recompute variant stores `availableQuantity = 0`. -/
theorem checkout_variants_reach_different_states :
    (BorrowingService.checkoutBook s0 0 1 1).1 =
      (BorrowingServiceLedger.checkoutBook s0 0 1 1).1 ∧
    (Op.checkout 0 1 1).apply s0 ≠ (Op.checkoutLedger 0 1 1).apply s0 ∧
    findBook ((Op.checkout 0 1 1).apply s0) 1 =
      some { id := 1, totalQuantity := 1, availableQuantity := 1 } ∧
    findBook ((Op.checkoutLedger 0 1 1).apply s0) 1 =
      some { id := 1, totalQuantity := 1, availableQuantity := 0 } := by
  decide

/-- C8 counterexample.  With three matching overdue entries and `limit = 2`,
the controller reports `total = 2` (the page size), not the matching total
3; and with two matching entries and `limit = 2` it reports
`hasNext = true` although `offset + limit < total` is false. -/
theorem overdue_meta_total_is_page_size :
    (BorrowingController.getOverdueBooks sOverdue3 100 (some 2) none).2.total = 2 ∧
    (sOverdue3.borrowings.filter
      (fun b => b.returnDate.isNone && decide (b.dueDate < 100))).length = 3 ∧
    (BorrowingController.getOverdueBooks sOverdue2 100 (some 2) none).2.hasNext = true ∧
    ¬ ((0 : Nat) + 2 <
      (sOverdue2.borrowings.filter
        (fun b => b.returnDate.isNone && decide (b.dueDate < 100))).length) := by
  decide

/-- C9 counterexample.  The overdue export's header is
`id,...,checkoutDate,dueDate,daysOverdue`: it omits the `returnDate` column
that the claim places before `daysOverdue`. -/
theorem overdue_export_header_omits_returnDate :
    BorrowingController.exportOverdueLastMonthCSV [] =
      "id,borrowerId,borrowerName,borrowerEmail,bookId,bookTitle,bookAuthor,isbn,checkoutDate,dueDate,daysOverdue\n" ∧
    BorrowingController.exportOverdueLastMonthCSV [] ≠
      "id,borrowerId,borrowerName,borrowerEmail,bookId,bookTitle,bookAuthor,isbn,checkoutDate,dueDate,returnDate,daysOverdue\n" := by
  decide

end Library
